import Mathlib

/-!
Verification of the multi-signature authentication and multisig wallet
subsystem of the GalaChain SDK repository.

The definitions below are shallow embeddings of the TypeScript sources:

* `GalaSdk.Msig` — the numeric-nonce `MultisigWalletContract`
  (`createMultisig` / `submitTx` / `confirmTx` from
  `chaincode/src/contracts`), with the class-validator DTO constraints
  declared on the DTO classes applied before the method body runs, as the
  `@Submit` wrapper does.
* `GalaSdk.Auth` — `authenticate` from `chaincode/src/contracts/authenticate.ts`
  and `PublicKeyService` (`ensureSignaturesValid` and its helpers) from
  `chaincode/src/services`.  Cryptographic primitives (`recoverPublicKey`,
  `isValid`, address derivation) are external libraries; they are passed in
  as an explicit environment of functions, so the control flow of the
  embedded code is exactly that of the source.
* `GalaSdk.Ctx` — the `callingUsers` / `callingUserData` fragment of
  `GalaChainContext`.
-/

namespace GalaSdk

/-! ## Association-list helpers

JavaScript objects / `Map`s keyed by strings or numbers are modelled as
association lists with last-write-wins update. -/

def alget {α β : Type} [DecidableEq α] : List (α × β) → α → Option β
  | [], _ => none
  | p :: m, k => if p.1 = k then some p.2 else alget m k

def aldel {α β : Type} [DecidableEq α] : List (α × β) → α → List (α × β)
  | [], _ => []
  | p :: m, k => if p.1 = k then aldel m k else p :: aldel m k

def alset {α β : Type} [DecidableEq α] (m : List (α × β)) (k : α) (v : β) :
    List (α × β) :=
  aldel m k ++ [(k, v)]

theorem alget_aldel_self {α β : Type} [DecidableEq α] (m : List (α × β)) (k : α) :
    alget (aldel m k) k = none := by
  induction m with
  | nil => simp [alget, aldel]
  | cons p m ih =>
    by_cases h : p.1 = k
    · simpa [aldel, h] using ih
    · simpa [aldel, alget, h] using ih

theorem alget_aldel_ne {α β : Type} [DecidableEq α] (m : List (α × β)) (k k' : α)
    (h : k' ≠ k) : alget (aldel m k) k' = alget m k' := by
  induction m with
  | nil => simp [aldel]
  | cons p m ih =>
    by_cases hp : p.1 = k
    · have hp' : p.1 ≠ k' := fun hc => h (hc.symm.trans hp)
      simpa [aldel, alget, hp, hp', Ne.symm h] using ih
    · simp [aldel, alget, hp, ih]

theorem alget_alset_self {α β : Type} [DecidableEq α] (m : List (α × β)) (k : α) (v : β) :
    alget (alset m k v) k = some v := by
  unfold alset
  induction m with
  | nil => simp [alget, aldel]
  | cons p m ih =>
    by_cases h : p.1 = k
    · simpa [aldel, h] using ih
    · simpa [aldel, alget, h] using ih

theorem alget_alset_ne {α β : Type} [DecidableEq α] (m : List (α × β)) (k k' : α) (v : β)
    (h : k' ≠ k) : alget (alset m k v) k' = alget m k' := by
  unfold alset
  induction m with
  | nil => simp [alget, aldel, Ne.symm h]
  | cons p m ih =>
    by_cases hp : p.1 = k
    · have hp' : p.1 ≠ k' := fun hc => h (hc.symm.trans hp)
      simpa [aldel, alget, hp, hp', Ne.symm h] using ih
    · simp [aldel, alget, hp, ih]

/-! ## Numeric-nonce multisig wallet contract

Shallow embedding of the `MultisigWalletContract` variant that persists a
typed `MultisigState` with numeric nonces (`createMultisig` / `submitTx` /
`confirmTx`).  The submitter / confirmer address, which the source recovers
from the DTO signature via `signatures.recoverPublicKey` and
`PublicKeyService.getUserAddress`, is passed in explicitly as `sender`
(the embedding covers the runs where recovery succeeds; recovery failure
aborts the call before any state access).  The class-validator constraints
declared on the DTO classes are applied first, as the `@Submit` wrapper
does. -/

namespace Msig

/-- A pending transaction `{to, data, confirmations}` (the source field `to`
is a reserved word in Lean, so it is named `toAddr` here). -/
structure PendingTx where
  toAddr : String
  data : String
  confirmations : List String
deriving Repr, DecidableEq

structure MultisigState where
  walletId : String
  owners : List String
  threshold : Nat
  nonce : Nat
  pendingTxs : List (Nat × GalaSdk.Msig.PendingTx)
deriving Repr, DecidableEq

/-- `CreateMultisigDto`: `walletId` is `@IsNotEmpty`, `owners` is
`@ArrayMinSize(1)`, `threshold` is `@Min(1)`. -/
structure CreateMultisigDto where
  walletId : String
  owners : List String
  threshold : Nat
deriving Repr, DecidableEq

def CreateMultisigDto.validB (d : CreateMultisigDto) : Bool :=
  d.walletId ≠ "" && d.owners ≠ [] && 1 ≤ d.threshold

/-- `SubmitTxDto`: `walletId`, `to` and `data` are all `@IsNotEmpty` strings
(the source field `to` is a reserved word in Lean, so it is named `toAddr`
here). -/
structure SubmitTxDto where
  walletId : String
  toAddr : String
  data : String
deriving Repr, DecidableEq

def SubmitTxDto.validB (d : SubmitTxDto) : Bool :=
  d.walletId ≠ "" && d.toAddr ≠ "" && d.data ≠ ""

/-- `ConfirmTxDto`: `walletId` is `@IsNotEmpty`, `nonce` is `@IsNumber`. -/
structure ConfirmTxDto where
  walletId : String
  nonce : Nat
deriving Repr, DecidableEq

def ConfirmTxDto.validB (d : ConfirmTxDto) : Bool :=
  d.walletId ≠ ""

inductive MsigEvent where
  | multisigCreated (walletId : String)
  | txSubmitted (walletId : String) (nonce : Nat)
  | txExecuted (walletId : String) (nonce : Nat)
deriving Repr, DecidableEq

inductive MsigError where
  | dtoValidation
  | notFound (key : String)
  | validationFailed (message : String)
deriving Repr, DecidableEq

/-- The persisted ledger rows of `MultisigState` objects, keyed by walletId
(the `MSIG|<walletId>` composite keys). -/
abbrev MsigStore := List (String × GalaSdk.Msig.MultisigState)

/-- `MultisigWalletContract.createMultisig`: no existence check and no
`owners.length ≥ threshold` check — it builds a fresh state with
`nonce = 0`, empty `pendingTxs`, persists it (overwriting any previous
wallet with the same id) and emits `MultisigCreated`. -/
def createMultisig (store : MsigStore) (dto : CreateMultisigDto) :
    Except MsigError (MsigStore × List MsigEvent × String) :=
  if dto.validB then
    let state : MultisigState :=
      { walletId := dto.walletId, owners := dto.owners, threshold := dto.threshold
        nonce := 0, pendingTxs := [] }
    .ok (alset store dto.walletId state, [.multisigCreated dto.walletId], dto.walletId)
  else .error .dtoValidation

/-- `MultisigWalletContract.submitTx`: loads the wallet (`getObjectByKey`
fails when absent), requires `sender ∈ owners`, records
`pendingTxs[nonce] = {to, data, confirmations: [sender]}`, increments the
nonce, persists, emits `TxSubmitted` and returns the assigned nonce.  There
is no threshold check here: the new entry is persisted even when
`threshold = 1`. -/
def submitTx (store : MsigStore) (dto : SubmitTxDto) (sender : String) :
    Except MsigError (MsigStore × List MsigEvent × Nat) :=
  if dto.validB then
    match alget store dto.walletId with
    | none => .error (.notFound dto.walletId)
    | some wallet =>
      if sender ∈ wallet.owners then
        let nonce := wallet.nonce
        let wallet' : MultisigState :=
          { wallet with
            pendingTxs := alset wallet.pendingTxs nonce
              { toAddr := dto.toAddr, data := dto.data, confirmations := [sender] }
            nonce := nonce + 1 }
        .ok (alset store dto.walletId wallet', [.txSubmitted dto.walletId nonce], nonce)
      else
        .error (.validationFailed
          ("Submitter " ++ sender ++ " is not an owner of wallet " ++ dto.walletId))
  else .error .dtoValidation

/-- `MultisigWalletContract.confirmTx`: loads the wallet, requires
`sender ∈ owners`, locates the pending entry, rejects a duplicate
confirmation, appends the sender; when the confirmation count reaches the
threshold the entry is deleted and `TxExecuted` is emitted; returns whether
it executed. -/
def confirmTx (store : MsigStore) (dto : ConfirmTxDto) (sender : String) :
    Except MsigError (MsigStore × List MsigEvent × Bool) :=
  if dto.validB then
    match alget store dto.walletId with
    | none => .error (.notFound dto.walletId)
    | some wallet =>
      if sender ∈ wallet.owners then
        match alget wallet.pendingTxs dto.nonce with
        | none =>
          .error (.validationFailed
            ("No pending transaction with nonce " ++ toString dto.nonce))
        | some pending =>
          if sender ∈ pending.confirmations then
            .error (.validationFailed
              ("Owner " ++ sender ++ " already confirmed transaction " ++ toString dto.nonce))
          else
            let confs := pending.confirmations ++ [sender]
            if wallet.threshold ≤ confs.length then
              let wallet' : MultisigState :=
                { wallet with pendingTxs := aldel wallet.pendingTxs dto.nonce }
              .ok (alset store dto.walletId wallet', [.txExecuted dto.walletId dto.nonce], true)
            else
              let wallet' : MultisigState :=
                { wallet with
                  pendingTxs := alset wallet.pendingTxs dto.nonce
                    { pending with confirmations := confs } }
              .ok (alset store dto.walletId wallet', [], false)
      else
        .error (.validationFailed
          ("Confirmer " ++ sender ++ " is not an owner of wallet " ++ dto.walletId))
  else .error .dtoValidation

/-- A contract invocation on the multisig wallet contract. -/
inductive MsigOp where
  | create (dto : CreateMultisigDto)
  | submit (dto : SubmitTxDto) (sender : String)
  | confirm (dto : ConfirmTxDto) (sender : String)
deriving Repr, DecidableEq

def stepOp (store : MsigStore) : MsigOp → Except MsigError (MsigStore × List MsigEvent)
  | .create dto =>
    match createMultisig store dto with
    | .ok (s, evts, _) => .ok (s, evts)
    | .error e => .error e
  | .submit dto sender =>
    match submitTx store dto sender with
    | .ok (s, evts, _) => .ok (s, evts)
    | .error e => .error e
  | .confirm dto sender =>
    match confirmTx store dto sender with
    | .ok (s, evts, _) => .ok (s, evts)
    | .error e => .error e

/-- A failed invocation is rolled back by Fabric: the store is unchanged. -/
def execOp (store : MsigStore) (op : MsigOp) : MsigStore :=
  match stepOp store op with
  | .ok (s, _) => s
  | .error _ => store

def runOps (store : MsigStore) (ops : List MsigOp) : MsigStore :=
  ops.foldl execOp store

def okB {ε α : Type} : Except ε α → Bool
  | .ok _ => true
  | .error _ => false

def isCreateOf (w : String) : MsigOp → Bool
  | .create dto => dto.walletId = w
  | _ => false

def isSubmitOn (w : String) : MsigOp → Bool
  | .submit dto _ => dto.walletId = w
  | _ => false

/-- Number of successful `submitTx` calls on wallet `w` along a run. -/
def successfulSubmits (w : String) : MsigStore → List MsigOp → Nat
  | _, [] => 0
  | s, op :: ops =>
    (if isSubmitOn w op && okB (stepOp s op) then 1 else 0) +
      successfulSubmits w (execOp s op) ops

theorem createMultisig_ok_spec {store : MsigStore} {dto : CreateMultisigDto}
    (h : dto.validB = true) :
    createMultisig store dto =
      .ok (alset store dto.walletId
            { walletId := dto.walletId, owners := dto.owners, threshold := dto.threshold
              nonce := 0, pendingTxs := [] },
           [.multisigCreated dto.walletId], dto.walletId) := by
  simp [createMultisig, h]

theorem submitTx_ok_spec {store : MsigStore} {dto : SubmitTxDto} {sender : String}
    {store' : MsigStore} {evts : List MsigEvent} {n : Nat}
    (h : submitTx store dto sender = .ok (store', evts, n)) :
    dto.validB = true ∧
    ∃ wallet, alget store dto.walletId = some wallet ∧ sender ∈ wallet.owners ∧
      n = wallet.nonce ∧ evts = [.txSubmitted dto.walletId wallet.nonce] ∧
      store' = alset store dto.walletId
        { wallet with
          pendingTxs := alset wallet.pendingTxs wallet.nonce
            { toAddr := dto.toAddr, data := dto.data, confirmations := [sender] }
          nonce := wallet.nonce + 1 } := by
  unfold submitTx at h
  split at h
  case isFalse => simp at h
  case isTrue hv =>
    split at h
    case h_1 hw => simp at h
    case h_2 wallet hw =>
      split at h
      case isFalse => simp at h
      case isTrue hmem =>
        simp only [Except.ok.injEq, Prod.mk.injEq] at h
        obtain ⟨h1, h2, h3⟩ := h
        exact ⟨hv, wallet, hw, hmem, h3.symm, h2.symm, h1.symm⟩

theorem confirmTx_ok_spec {store : MsigStore} {dto : ConfirmTxDto} {sender : String}
    {store' : MsigStore} {evts : List MsigEvent} {ex : Bool}
    (h : confirmTx store dto sender = .ok (store', evts, ex)) :
    dto.validB = true ∧
    ∃ wallet p, alget store dto.walletId = some wallet ∧ sender ∈ wallet.owners ∧
      alget wallet.pendingTxs dto.nonce = some p ∧ sender ∉ p.confirmations ∧
      ((wallet.threshold ≤ p.confirmations.length + 1 ∧ ex = true ∧
          evts = [.txExecuted dto.walletId dto.nonce] ∧
          store' = alset store dto.walletId
            { wallet with pendingTxs := aldel wallet.pendingTxs dto.nonce }) ∨
       (¬ wallet.threshold ≤ p.confirmations.length + 1 ∧ ex = false ∧ evts = [] ∧
          store' = alset store dto.walletId
            { wallet with
              pendingTxs := alset wallet.pendingTxs dto.nonce
                { p with confirmations := p.confirmations ++ [sender] } })) := by
  unfold confirmTx at h
  split at h
  case isFalse => simp at h
  case isTrue hv =>
    split at h
    case h_1 hw => simp at h
    case h_2 wallet hw =>
      split at h
      case isFalse => simp at h
      case isTrue hmem =>
        split at h
        case h_1 hp => simp at h
        case h_2 p hp =>
          split at h
          case isTrue => simp at h
          case isFalse hnc =>
            refine ⟨hv, wallet, p, hw, hmem, hp, hnc, ?_⟩
            dsimp only at h
            split at h
            case isTrue hth =>
              simp only [Except.ok.injEq, Prod.mk.injEq] at h
              obtain ⟨h1, h2, h3⟩ := h
              left
              refine ⟨?_, h3.symm, h2.symm, h1.symm⟩
              simpa using hth
            case isFalse hth =>
              simp only [Except.ok.injEq, Prod.mk.injEq] at h
              obtain ⟨h1, h2, h3⟩ := h
              right
              refine ⟨?_, h3.symm, h2.symm, h1.symm⟩
              simpa using hth

theorem createMultisig_ok_inv {store : MsigStore} {dto : CreateMultisigDto}
    {store' : MsigStore} {evts : List MsigEvent} {r : String}
    (h : createMultisig store dto = .ok (store', evts, r)) :
    dto.validB = true ∧
    store' = alset store dto.walletId
      { walletId := dto.walletId, owners := dto.owners, threshold := dto.threshold
        nonce := 0, pendingTxs := [] } ∧
    evts = [.multisigCreated dto.walletId] ∧ r = dto.walletId := by
  unfold createMultisig at h
  split at h
  case isFalse => simp at h
  case isTrue hv =>
    simp only [Except.ok.injEq, Prod.mk.injEq] at h
    exact ⟨hv, h.1.symm, h.2.1.symm, h.2.2.symm⟩

theorem stepOp_create_ok {s : MsigStore} {dto : CreateMultisigDto} {s' : MsigStore}
    {evts : List MsigEvent} (h : stepOp s (.create dto) = .ok (s', evts)) :
    ∃ r, createMultisig s dto = .ok (s', evts, r) := by
  simp only [stepOp] at h
  split at h
  case h_1 s₁ evts₁ r₁ hx =>
    simp only [Except.ok.injEq, Prod.mk.injEq] at h
    exact ⟨r₁, by rw [hx, h.1, h.2]⟩
  case h_2 => simp at h

theorem stepOp_submit_ok {s : MsigStore} {dto : SubmitTxDto} {sender : String}
    {s' : MsigStore} {evts : List MsigEvent}
    (h : stepOp s (.submit dto sender) = .ok (s', evts)) :
    ∃ n, submitTx s dto sender = .ok (s', evts, n) := by
  simp only [stepOp] at h
  split at h
  case h_1 s₁ evts₁ n₁ hx =>
    simp only [Except.ok.injEq, Prod.mk.injEq] at h
    exact ⟨n₁, by rw [hx, h.1, h.2]⟩
  case h_2 => simp at h

theorem stepOp_confirm_ok {s : MsigStore} {dto : ConfirmTxDto} {sender : String}
    {s' : MsigStore} {evts : List MsigEvent}
    (h : stepOp s (.confirm dto sender) = .ok (s', evts)) :
    ∃ ex, confirmTx s dto sender = .ok (s', evts, ex) := by
  simp only [stepOp] at h
  split at h
  case h_1 s₁ evts₁ ex₁ hx =>
    simp only [Except.ok.injEq, Prod.mk.injEq] at h
    exact ⟨ex₁, by rw [hx, h.1, h.2]⟩
  case h_2 => simp at h

theorem execOp_of_ok {s : MsigStore} {op : MsigOp} {s' : MsigStore} {evts : List MsigEvent}
    (h : stepOp s op = .ok (s', evts)) : execOp s op = s' := by
  simp [execOp, h]

theorem execOp_of_error {s : MsigStore} {op : MsigOp} {e : MsigError}
    (h : stepOp s op = .error e) : execOp s op = s := by
  simp [execOp, h]

/-! ### The pending-transaction invariant of reachable states -/

/-- Invariant of one pending entry relative to the wallet's owners and
threshold.  For wallets with `threshold = 1`, `submitTx` persists an entry
whose single confirmation already equals the threshold, so the strict bound
only holds from threshold 2 on. -/
def PendingOk (owners : List String) (threshold : Nat) (p : PendingTx) : Prop :=
  p.confirmations.Nodup ∧ (∀ a ∈ p.confirmations, a ∈ owners) ∧
  p.confirmations.length ≤ threshold ∧
  (2 ≤ threshold → p.confirmations.length < threshold)

def WalletOk (w : MultisigState) : Prop :=
  1 ≤ w.threshold ∧
  ∀ n p, alget w.pendingTxs n = some p → PendingOk w.owners w.threshold p

def StoreOk (s : MsigStore) : Prop :=
  ∀ wid w, alget s wid = some w → WalletOk w

theorem storeOk_nil : StoreOk [] := by
  intro wid w hw
  simp [alget] at hw

theorem validB_threshold {dto : CreateMultisigDto} (hv : dto.validB = true) :
    1 ≤ dto.threshold := by
  simp only [CreateMultisigDto.validB, Bool.and_eq_true, decide_eq_true_eq] at hv
  exact hv.2

theorem storeOk_execOp {s : MsigStore} (hs : StoreOk s) (op : MsigOp) :
    StoreOk (execOp s op) := by
  cases hstep : stepOp s op with
  | error e => rw [execOp_of_error hstep]; exact hs
  | ok pr =>
    obtain ⟨s', evts⟩ := pr
    rw [execOp_of_ok hstep]
    cases op with
    | create dto =>
      obtain ⟨r, hc⟩ := stepOp_create_ok hstep
      obtain ⟨hv, hstore, -, -⟩ := createMultisig_ok_inv hc
      subst hstore
      intro wid w hw
      by_cases hid : wid = dto.walletId
      · subst hid
        rw [alget_alset_self] at hw
        cases hw
        refine ⟨validB_threshold hv, ?_⟩
        intro n p hp
        simp [alget] at hp
      · rw [alget_alset_ne _ _ _ _ hid] at hw
        exact hs wid w hw
    | submit dto sender =>
      obtain ⟨n, hsub⟩ := stepOp_submit_ok hstep
      obtain ⟨hv, wallet, hwk, hmem, hn, hevts, hstore⟩ := submitTx_ok_spec hsub
      subst hstore
      intro wid w hw
      by_cases hid : wid = dto.walletId
      · subst hid
        rw [alget_alset_self] at hw
        cases hw
        obtain ⟨hth, hpend⟩ := hs dto.walletId wallet hwk
        refine ⟨hth, ?_⟩
        intro m p hp
        by_cases hm : m = wallet.nonce
        · subst hm
          rw [alget_alset_self] at hp
          cases hp
          refine ⟨List.nodup_singleton sender, ?_, ?_, ?_⟩
          · intro a ha
            simp only [List.mem_singleton] at ha
            subst ha
            exact hmem
          · simpa using hth
          · intro h2
            simpa using Nat.lt_of_lt_of_le Nat.one_lt_two h2
        · rw [alget_alset_ne _ _ _ _ hm] at hp
          exact hpend m p hp
      · rw [alget_alset_ne _ _ _ _ hid] at hw
        exact hs wid w hw
    | confirm dto sender =>
      obtain ⟨ex, hcf⟩ := stepOp_confirm_ok hstep
      obtain ⟨hv, wallet, p, hwk, hmem, hp, hnc, hbr⟩ := confirmTx_ok_spec hcf
      obtain ⟨hth, hpend⟩ := hs dto.walletId wallet hwk
      rcases hbr with ⟨hreach, -, -, hstore⟩ | ⟨hlt, -, -, hstore⟩
      · subst hstore
        intro wid w hw
        by_cases hid : wid = dto.walletId
        · subst hid
          rw [alget_alset_self] at hw
          cases hw
          refine ⟨hth, ?_⟩
          intro m q hq
          by_cases hm : m = dto.nonce
          · subst hm
            rw [alget_aldel_self] at hq
            cases hq
          · rw [alget_aldel_ne _ _ _ hm] at hq
            exact hpend m q hq
        · rw [alget_alset_ne _ _ _ _ hid] at hw
          exact hs wid w hw
      · subst hstore
        intro wid w hw
        by_cases hid : wid = dto.walletId
        · subst hid
          rw [alget_alset_self] at hw
          cases hw
          refine ⟨hth, ?_⟩
          intro m q hq
          by_cases hm : m = dto.nonce
          · subst hm
            rw [alget_alset_self] at hq
            cases hq
            obtain ⟨hnd, hsub, -, -⟩ := hpend dto.nonce p hp
            refine ⟨?_, ?_, ?_, ?_⟩
            · simpa [List.nodup_append] using ⟨hnd, fun hmm => hnc hmm⟩
            · intro a ha
              rcases List.mem_append.mp ha with ha | ha
              · exact hsub a ha
              · simp only [List.mem_singleton] at ha
                subst ha
                exact hmem
            · simpa using Nat.le_of_lt (Nat.lt_of_not_le hlt)
            · intro _
              simpa using Nat.lt_of_not_le hlt
          · dsimp only at hq
            rw [alget_alset_ne _ _ _ _ hm] at hq
            exact hpend m q hq
        · rw [alget_alset_ne _ _ _ _ hid] at hw
          exact hs wid w hw

theorem storeOk_runOps {s : MsigStore} (hs : StoreOk s) (ops : List MsigOp) :
    StoreOk (runOps s ops) := by
  induction ops generalizing s with
  | nil => exact hs
  | cons op ops ih => exact ih (storeOk_execOp hs op)

/-- Along any run that contains no `createMultisig` for wallet `w`, the
wallet persists, its owners and threshold never change, and its nonce grows
by exactly the number of successful `submitTx` calls on it. -/
theorem nonce_trace (w : String) (ops : List MsigOp) :
    ∀ (s : MsigStore) (wSt : MultisigState),
      (∀ op ∈ ops, isCreateOf w op = false) →
      alget s w = some wSt →
      ∃ wSt', alget (runOps s ops) w = some wSt' ∧
        wSt'.nonce = wSt.nonce + successfulSubmits w s ops ∧
        wSt'.owners = wSt.owners ∧ wSt'.threshold = wSt.threshold := by
  induction ops with
  | nil =>
    intro s wSt _ hget
    exact ⟨wSt, hget, by simp [successfulSubmits, runOps], rfl, rfl⟩
  | cons op ops ih =>
    intro s wSt hno hget
    have hnoop : isCreateOf w op = false := hno op (List.mem_cons_self op ops)
    have hnorest : ∀ o ∈ ops, isCreateOf w o = false :=
      fun o ho => hno o (List.mem_cons_of_mem _ ho)
    have hrun : runOps s (op :: ops) = runOps (execOp s op) ops := rfl
    have hcount : successfulSubmits w s (op :: ops) =
        (if isSubmitOn w op && okB (stepOp s op) then 1 else 0) +
          successfulSubmits w (execOp s op) ops := rfl
    cases hstep : stepOp s op with
    | error e =>
      have hex : execOp s op = s := execOp_of_error hstep
      obtain ⟨wSt', h1, h2, h3, h4⟩ := ih s wSt hnorest hget
      refine ⟨wSt', ?_, ?_, h3, h4⟩
      · rw [hrun, hex]; exact h1
      · rw [hcount, hex, hstep]
        simpa [okB] using h2
    | ok pr =>
      obtain ⟨s', evts⟩ := pr
      have hex : execOp s op = s' := execOp_of_ok hstep
      cases op with
      | create dto =>
        have hne : dto.walletId ≠ w := by
          simpa [isCreateOf] using hnoop
        obtain ⟨r, hc⟩ := stepOp_create_ok hstep
        obtain ⟨-, hstore, -, -⟩ := createMultisig_ok_inv hc
        have hget' : alget s' w = some wSt := by
          rw [hstore, alget_alset_ne _ _ _ _ (Ne.symm hne)]
          exact hget
        obtain ⟨wSt', h1, h2, h3, h4⟩ := ih s' wSt hnorest hget'
        refine ⟨wSt', ?_, ?_, h3, h4⟩
        · rw [hrun, hex]; exact h1
        · rw [hcount, hex]
          simpa [isSubmitOn] using h2
      | submit dto sender =>
        obtain ⟨n, hsub⟩ := stepOp_submit_ok hstep
        obtain ⟨hv, wallet, hwk, hmem, hn, hevts, hstore⟩ := submitTx_ok_spec hsub
        by_cases hid : dto.walletId = w
        · subst hid
          rw [hget] at hwk
          cases hwk
          have hget' : alget s' dto.walletId = some
              { wSt with
                pendingTxs := alset wSt.pendingTxs wSt.nonce
                  { toAddr := dto.toAddr, data := dto.data, confirmations := [sender] }
                nonce := wSt.nonce + 1 } := by
            rw [hstore]; exact alget_alset_self _ _ _
          obtain ⟨wSt', h1, h2, h3, h4⟩ := ih s' _ hnorest hget'
          have hcnt : successfulSubmits dto.walletId s (MsigOp.submit dto sender :: ops) =
              1 + successfulSubmits dto.walletId s' ops := by
            simp [successfulSubmits, isSubmitOn, okB, hstep, hex]
          refine ⟨wSt', ?_, ?_, by simpa using h3, by simpa using h4⟩
          · rw [hrun, hex]; exact h1
          · rw [hcnt]
            dsimp only at h2
            omega
        · have hget' : alget s' w = some wSt := by
            rw [hstore, alget_alset_ne _ _ _ _ (Ne.symm hid)]
            exact hget
          obtain ⟨wSt', h1, h2, h3, h4⟩ := ih s' wSt hnorest hget'
          refine ⟨wSt', ?_, ?_, h3, h4⟩
          · rw [hrun, hex]; exact h1
          · rw [hcount, hex]
            simpa [isSubmitOn, hid] using h2
      | confirm dto sender =>
        obtain ⟨ex, hcf⟩ := stepOp_confirm_ok hstep
        obtain ⟨hv, wallet, p, hwk, hmem, hp, hnc, hbr⟩ := confirmTx_ok_spec hcf
        have hnonce : ∃ w', s' = alset s dto.walletId w' ∧ w'.nonce = wallet.nonce ∧
            w'.owners = wallet.owners ∧ w'.threshold = wallet.threshold := by
          rcases hbr with ⟨-, -, -, hstore⟩ | ⟨-, -, -, hstore⟩
          · exact ⟨_, hstore, rfl, rfl, rfl⟩
          · exact ⟨_, hstore, rfl, rfl, rfl⟩
        obtain ⟨w', hstore, hwn, hwo, hwt⟩ := hnonce
        by_cases hid : dto.walletId = w
        · subst hid
          rw [hget] at hwk
          cases hwk
          have hget' : alget s' dto.walletId = some w' := by
            rw [hstore]; exact alget_alset_self _ _ _
          obtain ⟨wSt', h1, h2, h3, h4⟩ := ih s' w' hnorest hget'
          have hcnt : successfulSubmits dto.walletId s (MsigOp.confirm dto sender :: ops) =
              successfulSubmits dto.walletId s' ops := by
            simp [successfulSubmits, isSubmitOn, hex]
          refine ⟨wSt', ?_, ?_, by rw [h3, hwo], by rw [h4, hwt]⟩
          · rw [hrun, hex]; exact h1
          · rw [hcnt, h2, hwn]
        · have hget' : alget s' w = some wSt := by
            rw [hstore, alget_alset_ne _ _ _ _ (Ne.symm hid)]
            exact hget
          obtain ⟨wSt', h1, h2, h3, h4⟩ := ih s' wSt hnorest hget'
          refine ⟨wSt', ?_, ?_, h3, h4⟩
          · rw [hrun, hex]; exact h1
          · rw [hcount, hex]
            simpa [isSubmitOn] using h2

end Msig

/-! ## Claims C2–C5 -/

open Msig

/-- C2 (amended): `createMultisig` rejects with a validation error (before
any write) exactly when DTO validation fails — `threshold < 1`, empty
`owners`, or empty `walletId`; in particular a threshold that is not
greater than 0 is rejected.  Otherwise it unconditionally persists the
fresh `MultisigState` (nonce 0, no pending transactions): it does not check
`owners.length ≥ threshold` and does not check prior existence — an
existing wallet with the same id is overwritten. -/
theorem createMultisig_validation_amended :
    (∀ (store : MsigStore) (dto : CreateMultisigDto), dto.threshold = 0 →
        createMultisig store dto = .error .dtoValidation) ∧
    (∀ (store : MsigStore) (dto : CreateMultisigDto), dto.validB = true →
        createMultisig store dto =
          .ok (alset store dto.walletId
                { walletId := dto.walletId, owners := dto.owners, threshold := dto.threshold
                  nonce := 0, pendingTxs := [] },
               [.multisigCreated dto.walletId], dto.walletId) ∧
        alget (alset store dto.walletId
                { walletId := dto.walletId, owners := dto.owners, threshold := dto.threshold
                  nonce := 0, pendingTxs := [] }) dto.walletId =
          some { walletId := dto.walletId, owners := dto.owners, threshold := dto.threshold
                 nonce := 0, pendingTxs := [] }) := by
  constructor
  · intro store dto h
    have hv : dto.validB = false := by
      simp [CreateMultisigDto.validB, h]
    simp [createMultisig, hv]
  · intro store dto hv
    exact ⟨createMultisig_ok_spec hv, alget_alset_self _ _ _⟩

/-- Witness for C2: the DTO `{walletId: "w", owners: ["a"], threshold: 0}`
is rejected, and `{walletId: "w", owners: ["a"], threshold: 1}` is
persisted. -/
theorem createMultisig_validation_amended_witness :
    createMultisig [] ⟨"w", ["a"], 0⟩ = .error .dtoValidation ∧
    createMultisig [] ⟨"w", ["a"], 1⟩ =
      .ok ([("w", { walletId := "w", owners := ["a"], threshold := 1
                    nonce := 0, pendingTxs := [] })],
           [.multisigCreated "w"], "w") :=
  ⟨createMultisig_validation_amended.1 [] ⟨"w", ["a"], 0⟩ rfl,
   (createMultisig_validation_amended.2 [] ⟨"w", ["a"], 1⟩ (by decide)).1⟩

/-- C2 counterexample: the claim as stated is false — `createMultisig`
succeeds on a DTO whose owners list is shorter than the threshold, and
succeeds again for a walletId that already exists, overwriting the stored
state (nonce 5 is reset to 0). -/
theorem createMultisig_missing_checks_cex :
    createMultisig [] ⟨"w", ["a"], 2⟩ =
      .ok ([("w", { walletId := "w", owners := ["a"], threshold := 2
                    nonce := 0, pendingTxs := [] })],
           [.multisigCreated "w"], "w") ∧
    createMultisig
        [("w", { walletId := "w", owners := ["a", "b"], threshold := 2
                 nonce := 5, pendingTxs := [] })] ⟨"w", ["c"], 1⟩ =
      .ok ([("w", { walletId := "w", owners := ["c"], threshold := 1
                    nonce := 0, pendingTxs := [] })],
           [.multisigCreated "w"], "w") := by
  constructor <;> rfl

/-- C3 (amended): a successful `submitTx` never auto-executes, whatever the
threshold: it emits exactly one `TxSubmitted` event (never `TxExecuted`)
and the new pending entry, carrying the submitter's single confirmation, is
persisted — also when `threshold = 1`, where that single confirmation
already reaches the threshold. -/
theorem submitTx_never_autoexecutes :
    ∀ (store : MsigStore) (dto : SubmitTxDto) (sender : String)
      (store' : MsigStore) (evts : List MsigEvent) (n : Nat),
      submitTx store dto sender = .ok (store', evts, n) →
      evts = [.txSubmitted dto.walletId n] ∧
      (∀ wid m, MsigEvent.txExecuted wid m ∉ evts) ∧
      ∃ w', alget store' dto.walletId = some w' ∧
        alget w'.pendingTxs n = some { toAddr := dto.toAddr, data := dto.data
                                       confirmations := [sender] } := by
  intro store dto sender store' evts n h
  obtain ⟨hv, wallet, hwk, hmem, hn, hevts, hstore⟩ := submitTx_ok_spec h
  subst hn
  refine ⟨hevts, ?_, ?_⟩
  · intro wid m hmm
    rw [hevts] at hmm
    simp at hmm
  · subst hstore
    refine ⟨_, alget_alset_self _ _ _, ?_⟩
    dsimp only
    exact alget_alset_self _ _ _

/-- Witness for C3: a submission by owner `a` on the threshold-1 wallet
`w`. -/
theorem submitTx_never_autoexecutes_witness :
    ([MsigEvent.txSubmitted "w" 0] = [MsigEvent.txSubmitted "w" 0]) ∧
    (∀ wid m, MsigEvent.txExecuted wid m ∉ [MsigEvent.txSubmitted "w" 0]) ∧
    ∃ w', alget [("w", (⟨"w", ["a"], 1, 1, [(0, ⟨"r", "d", ["a"]⟩)]⟩ : MultisigState))] "w" =
        some w' ∧
      alget w'.pendingTxs 0 = some (⟨"r", "d", ["a"]⟩ : PendingTx) :=
  submitTx_never_autoexecutes
    [("w", (⟨"w", ["a"], 1, 0, []⟩ : MultisigState))] ⟨"w", "r", "d"⟩ "a"
    [("w", (⟨"w", ["a"], 1, 1, [(0, ⟨"r", "d", ["a"]⟩)]⟩ : MultisigState))]
    [MsigEvent.txSubmitted "w" 0] 0 (by rfl)

/-- C3 counterexample: on the threshold-1 wallet `w`, a successful
`submitTx` does not auto-execute — the pending transaction is persisted
(not removed) and no `TxExecuted` event is emitted, contradicting the
claim. -/
theorem submitTx_threshold_one_cex :
    submitTx [("w", { walletId := "w", owners := ["a"], threshold := 1
                      nonce := 0, pendingTxs := [] })] ⟨"w", "r", "d"⟩ "a" =
      .ok ([("w", { walletId := "w", owners := ["a"], threshold := 1, nonce := 1
                    pendingTxs := [(0, { toAddr := "r", data := "d"
                                         confirmations := ["a"] })] })],
           [.txSubmitted "w" 0], 0) ∧
    (MsigEvent.txExecuted "w" 0) ∉ ([MsigEvent.txSubmitted "w" 0] : List MsigEvent) := by
  constructor
  · rfl
  · decide

/-- C4 (amended): in every state reachable from the empty ledger, every
persisted pending transaction has a duplicate-free confirmations list drawn
from the wallet's owners, of size at most the threshold — and strictly
below the threshold whenever the threshold is at least 2 (a threshold-1
wallet persists the submitter's confirmation at exactly the threshold,
because `submitTx` does not auto-execute).  Whenever a confirmation makes
the count reach the threshold, `confirmTx` removes the entry in the same
transaction and emits `TxExecuted`. -/
theorem pending_confirmations_invariant_amended :
    (∀ (ops : List MsigOp) (wid : String) (w : MultisigState),
        alget (runOps [] ops) wid = some w →
        ∀ n p, alget w.pendingTxs n = some p →
          p.confirmations.Nodup ∧ (∀ a ∈ p.confirmations, a ∈ w.owners) ∧
          p.confirmations.length ≤ w.threshold ∧
          (2 ≤ w.threshold → p.confirmations.length < w.threshold)) ∧
    (∀ (store : MsigStore) (dto : ConfirmTxDto) (sender : String)
        (store' : MsigStore) (evts : List MsigEvent),
        confirmTx store dto sender = .ok (store', evts, true) →
        evts = [.txExecuted dto.walletId dto.nonce] ∧
        ∃ w', alget store' dto.walletId = some w' ∧
          alget w'.pendingTxs dto.nonce = none) := by
  constructor
  · intro ops wid w hw n p hp
    exact (storeOk_runOps storeOk_nil ops wid w hw).2 n p hp
  · intro store dto sender store' evts h
    obtain ⟨hv, wallet, p, hwk, hmem, hp, hnc, hbr⟩ := confirmTx_ok_spec h
    rcases hbr with ⟨hreach, -, hevts, hstore⟩ | ⟨-, hex, -, -⟩
    · subst hstore
      refine ⟨hevts, _, alget_alset_self _ _ _, ?_⟩
      dsimp only
      exact alget_aldel_self _ _
    · cases hex

/-- Witness for C4: the wallet `{owners: [a,b], threshold: 2}` after a
submission by `a`, and the threshold-reaching confirmation by `b`. -/
theorem pending_confirmations_invariant_amended_witness :
    ((["a"] : List String).Nodup ∧ (∀ x ∈ (["a"] : List String), x ∈ ["a", "b"]) ∧
      (["a"] : List String).length ≤ 2 ∧
      (2 ≤ 2 → (["a"] : List String).length < 2)) ∧
    ([MsigEvent.txExecuted "w" 0] = [MsigEvent.txExecuted "w" 0] ∧
      ∃ w', alget [("w", (⟨"w", ["a", "b"], 2, 1, []⟩ : MultisigState))] "w" = some w' ∧
        alget w'.pendingTxs 0 = none) :=
  ⟨pending_confirmations_invariant_amended.1
      [.create ⟨"w", ["a", "b"], 2⟩, .submit ⟨"w", "r", "d"⟩ "a"] "w"
      ⟨"w", ["a", "b"], 2, 1, [(0, ⟨"r", "d", ["a"]⟩)]⟩
      (by rfl) 0 ⟨"r", "d", ["a"]⟩ (by rfl),
   pending_confirmations_invariant_amended.2
      [("w", (⟨"w", ["a", "b"], 2, 1, [(0, ⟨"r", "d", ["a"]⟩)]⟩ : MultisigState))]
      ⟨"w", 0⟩ "b"
      [("w", (⟨"w", ["a", "b"], 2, 1, []⟩ : MultisigState))]
      [MsigEvent.txExecuted "w" 0] (by rfl)⟩

/-- C4 counterexample: the reachable state after `createMultisig` with
threshold 1 and one `submitTx` holds a pending transaction whose
confirmations list has length equal to — not strictly less than — the
wallet's threshold. -/
theorem pending_at_threshold_cex :
    alget (runOps [] [.create ⟨"w", ["a"], 1⟩, .submit ⟨"w", "r", "d"⟩ "a"]) "w" =
      some (⟨"w", ["a"], 1, 1, [(0, ⟨"r", "d", ["a"]⟩)]⟩ : MultisigState) ∧
    ¬ ((["a"] : List String).length < (1 : Nat)) := by
  constructor
  · rfl
  · decide

/-- C5 (amended): the nonce of a wallet persisted by `createMultisig` is 0;
every successful `submitTx` increments the wallet nonce by exactly 1 and
stores the new pending entry under the pre-increment value; and along any
run containing no `createMultisig` for the wallet, the nonce grows by
exactly the number of successful `submitTx` calls on it (so it never
decreases under `submitTx` / `confirmTx`).  `createMultisig` on an existing
walletId, however, resets the nonce to 0. -/
theorem nonce_counting_amended :
    (∀ (store : MsigStore) (dto : CreateMultisigDto) (store' : MsigStore)
        (evts : List MsigEvent) (r : String),
        createMultisig store dto = .ok (store', evts, r) →
        ∃ w, alget store' dto.walletId = some w ∧ w.nonce = 0) ∧
    (∀ (store : MsigStore) (dto : SubmitTxDto) (sender : String) (store' : MsigStore)
        (evts : List MsigEvent) (n : Nat),
        submitTx store dto sender = .ok (store', evts, n) →
        ∃ wallet, alget store dto.walletId = some wallet ∧ n = wallet.nonce ∧
          ∃ w', alget store' dto.walletId = some w' ∧ w'.nonce = wallet.nonce + 1 ∧
            alget w'.pendingTxs wallet.nonce =
              some { toAddr := dto.toAddr, data := dto.data, confirmations := [sender] }) ∧
    (∀ (w : String) (ops : List MsigOp) (s : MsigStore) (wSt : MultisigState),
        (∀ op ∈ ops, isCreateOf w op = false) →
        alget s w = some wSt →
        ∃ wSt', alget (runOps s ops) w = some wSt' ∧
          wSt'.nonce = wSt.nonce + successfulSubmits w s ops) := by
  refine ⟨?_, ?_, ?_⟩
  · intro store dto store' evts r h
    obtain ⟨hv, hstore, -, -⟩ := createMultisig_ok_inv h
    subst hstore
    exact ⟨_, alget_alset_self _ _ _, rfl⟩
  · intro store dto sender store' evts n h
    obtain ⟨hv, wallet, hwk, hmem, hn, hevts, hstore⟩ := submitTx_ok_spec h
    subst hstore
    refine ⟨wallet, hwk, hn, _, alget_alset_self _ _ _, rfl, ?_⟩
    dsimp only
    exact alget_alset_self _ _ _
  · intro w ops s wSt hno hget
    obtain ⟨wSt', h1, h2, -, -⟩ := nonce_trace w ops s wSt hno hget
    exact ⟨wSt', h1, h2⟩

/-- Witness for C5: creating wallet `w`, one submission by owner `a`, and a
singleton run consisting of that submission. -/
theorem nonce_counting_amended_witness :
    (∃ w, alget [("w", (⟨"w", ["a"], 1, 0, []⟩ : MultisigState))] "w" = some w ∧
      w.nonce = 0) ∧
    (∃ wallet, alget [("w", (⟨"w", ["a"], 1, 0, []⟩ : MultisigState))] "w" = some wallet ∧
      0 = wallet.nonce ∧
      ∃ w', alget [("w", (⟨"w", ["a"], 1, 1, [(0, ⟨"r", "d", ["a"]⟩)]⟩ : MultisigState))] "w" =
          some w' ∧
        w'.nonce = wallet.nonce + 1 ∧
        alget w'.pendingTxs wallet.nonce = some (⟨"r", "d", ["a"]⟩ : PendingTx)) ∧
    (∃ wSt', alget (runOps [("w", (⟨"w", ["a"], 1, 0, []⟩ : MultisigState))]
          [.submit ⟨"w", "r", "d"⟩ "a"]) "w" = some wSt' ∧
      wSt'.nonce = 0 + successfulSubmits "w" [("w", (⟨"w", ["a"], 1, 0, []⟩ : MultisigState))]
        [.submit ⟨"w", "r", "d"⟩ "a"]) :=
  ⟨nonce_counting_amended.1 [] ⟨"w", ["a"], 1⟩ _ _ _ (by rfl),
   nonce_counting_amended.2.1
     [("w", (⟨"w", ["a"], 1, 0, []⟩ : MultisigState))] ⟨"w", "r", "d"⟩ "a"
     [("w", (⟨"w", ["a"], 1, 1, [(0, ⟨"r", "d", ["a"]⟩)]⟩ : MultisigState))]
     [MsigEvent.txSubmitted "w" 0] 0 (by rfl),
   nonce_counting_amended.2.2 "w" [.submit ⟨"w", "r", "d"⟩ "a"]
     [("w", (⟨"w", ["a"], 1, 0, []⟩ : MultisigState))] ⟨"w", ["a"], 1, 0, []⟩
     (by intro op hop; simp at hop; subst hop; rfl) (by rfl)⟩

/-- C5 counterexample: after `create; submit` the nonce is 1, but a second
`createMultisig` on the same walletId resets it to 0, although the run
contains one successful `submitTx` — so the nonce decreased and no longer
equals the number of successful submissions. -/
theorem nonce_reset_by_recreate_cex :
    (alget (runOps [] [.create ⟨"w", ["a"], 1⟩, .submit ⟨"w", "r", "d"⟩ "a"]) "w").map
        MultisigState.nonce = some 1 ∧
    (alget (runOps [] [.create ⟨"w", ["a"], 1⟩, .submit ⟨"w", "r", "d"⟩ "a",
        .create ⟨"w", ["a"], 1⟩]) "w").map MultisigState.nonce = some 0 ∧
    successfulSubmits "w" [] [.create ⟨"w", ["a"], 1⟩, .submit ⟨"w", "r", "d"⟩ "a",
        .create ⟨"w", ["a"], 1⟩] = 1 := by
  refine ⟨rfl, rfl, rfl⟩

/-! ## Authenticator

Shallow embedding of `authenticate` (`contracts/authenticate.ts`) and of
`PublicKeyService.ensureSignaturesValid` (`services`).  The cryptographic
primitives from `@gala-chain/api` (`signatures.recoverPublicKey`,
`signatures.isValid`, `signatures.ton.isValidSignature`, address
derivation, key normalization) and the ledger-backed stores are supplied as
an explicit environment `AuthEnv`; the embedded functions reproduce the
source's control flow over that environment.  A `some`/`none` `Option`
models a defined/`undefined` TypeScript value; `optTruthy` models
JavaScript truthiness for strings (the empty string is falsy). -/

namespace Auth

inductive SigningScheme where
  | ETH
  | TON
deriving Repr, DecidableEq

/-- One entry of `dto.signatures`. -/
structure SignatureDto where
  signature : String
  signerPublicKey : Option String := none
  signerAddress : Option String := none
deriving Repr, DecidableEq

/-- The envelope fields `authenticate` consults (the source field `prefix`
is a reserved word in Lean, so it is named `pfx` here). -/
structure ChainCallDTO where
  signatures : Option (List SignatureDto) := none
  signing : Option SigningScheme := none
  pfx : Option String := none
  signerAddress : Option String := none
deriving Repr, DecidableEq

/-- `UserProfile` (the source field `alias` is a reserved word in Lean, so
it is named `alias'` here). -/
structure UserProfile where
  alias' : String
  ethAddress : Option String := none
  tonAddress : Option String := none
  roles : List String := []
deriving Repr, DecidableEq

structure PublicKey where
  publicKey : String
  signing : SigningScheme
deriving Repr, DecidableEq

/-- The external environment of an authentication call: the crypto
primitives of `@gala-chain/api` and the ledger state reached through
`ctx.stub` (`GCUP|<address>` user-profile rows, `GCPK|<alias>` public-key
rows, and the `DEV_ADMIN_*` environment synthesis of
`PublicKeyService.getUserProfile` / `getPublicKey`, represented as the
functions `adminProfile` / `adminPublicKey`, constantly `none` when the
variables are unset). -/
structure AuthEnv where
  recoverPublicKey : String → ChainCallDTO → String → Option String
  getNonCompactHexPublicKey : String → String
  getEthAddress : String → String
  getCompactBase64PublicKey : String → String
  getTonAddress : String → String
  isValidEth : String → ChainCallDTO → String → Bool
  isValidTon : String → ChainCallDTO → String → Option String → Bool
  profileState : List (String × UserProfile)
  adminProfile : String → Option UserProfile
  publicKeyState : List (String × PublicKey)
  adminPublicKey : String → Option PublicKey

/-- The decoded `signedProposal.proposal.payload.array[0]`:
`chaincodeId` is `invocationSpec.chaincode_spec?.chaincode_id?.name`,
`none` when `chaincode_spec` or `chaincode_id` is absent; the decoded
protobuf string field itself may be empty. -/
structure ProposalPayload where
  chaincodeId : Option String
deriving Repr, DecidableEq

structure SignedProposal where
  proposalPayload : Option ProposalPayload
deriving Repr, DecidableEq

/-- The fragment of `GalaChainContext` that `authenticate` reads and
writes: `ctx.config.allowNonRegisteredUsers`, `ctx.stub.getSignedProposal()`
and the private `callingUsersValue` behind `ctx.callingUsers`. -/
structure AuthCtx where
  allowNonRegisteredUsers : Bool := false
  signedProposal : Option SignedProposal := none
  callingUsersValue : Option (List UserProfile) := none
deriving Repr, DecidableEq

/-- JavaScript string truthiness: `undefined` and `""` are falsy. -/
def optTruthy : Option String → Option String
  | some s => if s = "" then none else some s
  | none => none

/-- `UserProfile.DEFAULT_ROLES` of `@gala-chain/api` (not under `src/`);
modelled as an opaque-to-the-claims constant role list. -/
def DEFAULT_ROLES : List String := ["EVALUATE", "SUBMIT"]

def SigningScheme.toLower : SigningScheme → String
  | .ETH => "eth"
  | .TON => "ton"

namespace PublicKeyService

/-- `PublicKeyService.getUserAddress`. -/
def getUserAddress (env : AuthEnv) (publicKey : String) (signing : SigningScheme) : String :=
  match signing with
  | .TON => env.getTonAddress publicKey
  | .ETH => env.getEthAddress (env.getNonCompactHexPublicKey publicKey)

/-- `PublicKeyService.getUserProfile`: the `GCUP|<address>` row, or the
`DEV_ADMIN_PUBLIC_KEY` synthesis when no row exists. -/
def getUserProfile (env : AuthEnv) (address : String) : Option UserProfile :=
  match alget env.profileState address with
  | some p => some p
  | none => env.adminProfile address

/-- `PublicKeyService.getUserProfiles`: the batch read used by
`ensureSignaturesValid`.  It reads the raw `GCUP` rows only — no admin
synthesis — and returns only the found profiles. -/
def getUserProfiles (env : AuthEnv) (addresses : List String) : List UserProfile :=
  addresses.filterMap (fun a => alget env.profileState a)

/-- `PublicKeyService.getDefaultUserProfile`. -/
def getDefaultUserProfile (env : AuthEnv) (publicKey : String) (signing : SigningScheme) :
    UserProfile :=
  let address := getUserAddress env publicKey signing
  { alias' := signing.toLower ++ "|" ++ address
    ethAddress := if signing = .ETH then some address else none
    tonAddress := if signing = .TON then some address else none
    roles := DEFAULT_ROLES }

/-- `PublicKeyService.getPublicKey`: the `GCPK|<alias>` row, or the
`DEV_ADMIN_USER_ID` synthesis. -/
def getPublicKey (env : AuthEnv) (userId : String) : Option PublicKey :=
  match alget env.publicKeyState userId with
  | some pk => some pk
  | none => env.adminPublicKey userId

end PublicKeyService

inductive AuthErrorKind where
  | publicKeyMismatch (recovered inDto : String)
  | redundantSignerPublicKey (recovered inDto : String)
  | addressMismatch (recovered inDto : String)
  | redundantSignerAddress (recovered inDto : String)
  | missingSigner (signature : String)
  | userNotRegistered (userId : String)
  | pkMissing (userAlias : String)
  | pkInvalidSignature (userId : String)
deriving Repr, DecidableEq

/-- Errors of `authenticate`; every error thrown inside the per-signature
loop is annotated with the signer id (`signerError`). -/
inductive AuthError where
  | missingSignature
  | chaincodeAuthorization (message : String)
  | signerError (kind : AuthErrorKind) (signer : String)
deriving Repr, DecidableEq

/-- The local `recoverPublicKey` wrapper of `authenticate.ts`: returns
`undefined` for the TON scheme, and turns a recovery exception into
`undefined`. -/
def recoverPublicKey (env : AuthEnv) (signature : String) (dto : ChainCallDTO)
    (pfx : String) : Option String :=
  if dto.signing = some .TON then none
  else env.recoverPublicKey signature dto pfx

/-- The local `getUserProfile` helper of `authenticate.ts`. -/
def getUserProfile (env : AuthEnv) (allowNonRegisteredUsers : Bool) (publicKey : String)
    (signing : SigningScheme) : Except AuthErrorKind UserProfile :=
  let address := PublicKeyService.getUserAddress env publicKey signing
  match PublicKeyService.getUserProfile env address with
  | some profile => .ok profile
  | none =>
    if allowNonRegisteredUsers then
      .ok (PublicKeyService.getDefaultUserProfile env publicKey signing)
    else .error (.userNotRegistered address)

/-- The local `getUserProfileAndPublicKey` helper of `authenticate.ts`. -/
def getUserProfileAndPublicKey (env : AuthEnv) (address : String) :
    Except AuthErrorKind (UserProfile × PublicKey) :=
  match PublicKeyService.getUserProfile env address with
  | none => .error (.userNotRegistered address)
  | some profile =>
    match PublicKeyService.getPublicKey env profile.alias' with
    | none => .error (.pkMissing profile.alias')
    | some publicKey => .ok (profile, publicKey)

/-- The body of one iteration of the per-signature loop of `authenticate`
(`authenticate.ts` lines 124–186), without the signer-id annotation. -/
def processEntry (env : AuthEnv) (allow : Bool) (dto : ChainCallDTO)
    (scheme : SigningScheme) (sig : SignatureDto) : Except AuthErrorKind UserProfile :=
  match recoverPublicKey env sig.signature dto (dto.pfx.getD "") with
  | some recoveredPkHex =>
    match sig.signerPublicKey with
    | some spk =>
      let hexKey := env.getNonCompactHexPublicKey spk
      if recoveredPkHex ≠ hexKey then .error (.publicKeyMismatch recoveredPkHex hexKey)
      else .error (.redundantSignerPublicKey recoveredPkHex spk)
    | none =>
      match sig.signerAddress with
      | some sa =>
        let ethAddress := env.getEthAddress recoveredPkHex
        if sa ≠ ethAddress then .error (.addressMismatch ethAddress sa)
        else .error (.redundantSignerAddress ethAddress sa)
      | none => getUserProfile env allow recoveredPkHex scheme
  | none =>
    match sig.signerAddress with
    | some sa =>
      match sig.signerPublicKey with
      | some spk => .error (.redundantSignerPublicKey sa spk)
      | none =>
        match getUserProfileAndPublicKey env sa with
        | .error e => .error e
        | .ok (profile, publicKey) =>
          let isValid :=
            match scheme with
            | .TON => env.isValidTon sig.signature dto publicKey.publicKey dto.pfx
            | .ETH => env.isValidEth sig.signature dto publicKey.publicKey
          if isValid then .ok profile
          else .error (.pkInvalidSignature profile.alias')
    | none =>
      match sig.signerPublicKey with
      | some spk =>
        let isValid :=
          match scheme with
          | .TON => env.isValidTon sig.signature dto spk dto.pfx
          | .ETH => env.isValidEth sig.signature dto spk
        if isValid then getUserProfile env allow spk scheme
        else .error (.pkInvalidSignature (PublicKeyService.getUserAddress env spk scheme))
      | none => .error (.missingSigner sig.signature)

/-- `sig.signerAddress ?? sig.signerPublicKey ?? "index i"` — the signer id
used to annotate errors. -/
def signerIdOf (sig : SignatureDto) (i : Nat) : String :=
  match sig.signerAddress with
  | some sa => sa
  | none =>
    match sig.signerPublicKey with
    | some spk => spk
    | none => "index " ++ toString i

/-- The per-signature loop of `authenticate` from index `i` on: each entry
yields one profile, and errors are annotated with the signer id. -/
def processEntries (env : AuthEnv) (allow : Bool) (dto : ChainCallDTO)
    (scheme : SigningScheme) : List SignatureDto → Nat → Except AuthError (List UserProfile)
  | [], _ => .ok []
  | sig :: rest, i =>
    match processEntry env allow dto scheme sig with
    | .error k => .error (.signerError k (signerIdOf sig i))
    | .ok u =>
      match processEntries env allow dto scheme rest (i + 1) with
      | .error e => .error e
      | .ok us => .ok (u :: us)

/-- The value `authenticate` resolves to: the spread of `users[0]` plus the
`users` list and `minSignatures`. -/
structure AuthResult where
  alias' : String
  ethAddress : Option String := none
  tonAddress : Option String := none
  roles : List String := []
  users : List UserProfile := []
  minSignatures : Nat := 1
deriving Repr, DecidableEq

/-- `authenticateAsOriginChaincode`: checks the target chaincode name
decoded from the peer's signed proposal.  (Decoding of well-formed protobuf
bytes is represented by `ProposalPayload`; the `chaincodeId === undefined`
test can only fire when `chaincode_spec` or `chaincode_id` is absent, the
decoded `name` string itself defaulting to `""`.) -/
def authenticateAsOriginChaincode (ctx : AuthCtx) (dto : ChainCallDTO) (chaincode : String) :
    Except AuthError (String × Option String × List String) :=
  match ctx.signedProposal with
  | none =>
    .error (.chaincodeAuthorization "Chaincode authorization failed: got empty signed proposal.")
  | some signedProposal =>
    match signedProposal.proposalPayload with
    | none =>
      .error (.chaincodeAuthorization
        "Chaincode authorization failed: got empty proposal payload in signed proposal.")
    | some proposalPayload =>
      match proposalPayload.chaincodeId with
      | none =>
        .error (.chaincodeAuthorization
          "Chaincode authorization failed: got empty chaincodeId in signed proposal.")
      | some chaincodeId =>
        if chaincodeId ≠ chaincode then
          .error (.chaincodeAuthorization
            ("Chaincode authorization failed. Got DTO with signerAddress: " ++
              (dto.signerAddress.getD "undefined") ++
              ", but signed proposal has chaincodeId: " ++ chaincodeId ++ "."))
        else .ok ("service|" ++ chaincode, none, [])

/-- The copy `authenticate` makes of each resolved profile (`new
UserProfile()` with the four fields assigned). -/
def copyProfile (u : UserProfile) : UserProfile :=
  { alias' := u.alias', ethAddress := u.ethAddress, tonAddress := u.tonAddress
    roles := u.roles }

/-- JavaScript `String.prototype.startsWith`, modelled as a prefix test on
the character sequence. -/
def strStartsWith (s p : String) : Bool :=
  p.data.isPrefixOf s.data

/-- The empty-signatures path of `authenticate`: the origin-chaincode
branch when `dto.signerAddress` starts with `service|`, `MissingSignature`
otherwise (`dto.signerAddress.slice(8)` drops the 8-character prefix). -/
def authenticateEmpty (ctx : AuthCtx) (dto : ChainCallDTO) (minSignatures : Nat) :
    Except AuthError (AuthResult × AuthCtx) :=
  match dto.signerAddress with
  | some sa =>
    if strStartsWith sa "service|" then
      match authenticateAsOriginChaincode ctx dto (sa.drop 8) with
      | .error e => .error e
      | .ok (a, eth, roles) =>
        .ok ({ alias' := a, ethAddress := eth, tonAddress := none, roles := roles
               users := [], minSignatures := minSignatures }, ctx)
    else .error .missingSignature
  | none => .error .missingSignature

/-- The signed path of `authenticate`: the per-signature loop, the copies
of the resolved profiles, `ctx.callingUsers = callingUsers`, and the spread
of the first user into the result. -/
def authenticateSigned (env : AuthEnv) (ctx : AuthCtx) (dto : ChainCallDTO)
    (s : SignatureDto) (ss : List SignatureDto) (minSignatures : Nat) :
    Except AuthError (AuthResult × AuthCtx) :=
  let scheme := dto.signing.getD .ETH
  match processEntry env ctx.allowNonRegisteredUsers dto scheme s with
  | .error k => .error (.signerError k (signerIdOf s 0))
  | .ok u =>
    match processEntries env ctx.allowNonRegisteredUsers dto scheme ss 1 with
    | .error e => .error e
    | .ok us =>
      let callingUsers := (u :: us).map copyProfile
      .ok ({ alias' := (copyProfile u).alias', ethAddress := (copyProfile u).ethAddress
             tonAddress := (copyProfile u).tonAddress, roles := (copyProfile u).roles
             users := callingUsers, minSignatures := minSignatures },
           { ctx with callingUsersValue := some callingUsers })

/-- `authenticate(ctx, dto, minSignatures)`.  Returns the result together
with the updated context (`ctx.callingUsers = callingUsers` on the signed
path; the context is untouched on the origin-chaincode path). -/
def authenticate (env : AuthEnv) (ctx : AuthCtx) (dto? : Option ChainCallDTO)
    (minSignatures : Nat) : Except AuthError (AuthResult × AuthCtx) :=
  match dto? with
  | none => .error .missingSignature
  | some dto =>
    match dto.signatures with
    | some (s :: ss) => authenticateSigned env ctx dto s ss minSignatures
    | _ => authenticateEmpty ctx dto minSignatures

/-! ### `PublicKeyService.ensureSignaturesValid` -/

/-- Errors of `ensureSignaturesValid` (these are not signer-annotated). -/
inductive SvcError where
  | missingSigner (signature : String)
  | duplicateSigner (address : String)
  | userNotRegistered (userId : String)
  | pkMissing (userAlias : String)
  | pkInvalidSignature (userId : String)
deriving Repr, DecidableEq

/-- The first phase of `ensureSignaturesValid` for one entry: determine the
`(address, publicKey?)` pair.  `signerAddress` and `signerPublicKey` are
consulted with JavaScript truthiness; recovery is skipped for TON. -/
def resolveOne (env : AuthEnv) (dto : ChainCallDTO) (scheme : SigningScheme)
    (sig : SignatureDto) : Except SvcError (String × Option String) :=
  match optTruthy sig.signerAddress with
  | some sa => .ok (sa, none)
  | none =>
    match optTruthy sig.signerPublicKey with
    | some spk => .ok (PublicKeyService.getUserAddress env spk scheme, some spk)
    | none =>
      let recovered : Option String :=
        if dto.signing = some .TON then none
        else env.recoverPublicKey sig.signature dto (dto.pfx.getD "")
      match optTruthy recovered with
      | some r =>
        .ok (PublicKeyService.getUserAddress env r scheme,
             some (env.getCompactBase64PublicKey r))
      | none => .error (.missingSigner sig.signature)

/-- The first loop of `ensureSignaturesValid`: resolve every entry,
rejecting an address already in the `seen` set with `DuplicateSigner`. -/
def resolveAll (env : AuthEnv) (dto : ChainCallDTO) (scheme : SigningScheme) :
    List SignatureDto → List String → Except SvcError (List (String × Option String))
  | [], _ => .ok []
  | sig :: rest, seen =>
    match resolveOne env dto scheme sig with
    | .error e => .error e
    | .ok (address, pk) =>
      if address ∈ seen then .error (.duplicateSigner address)
      else
        match resolveAll env dto scheme rest (address :: seen) with
        | .error e => .error e
        | .ok more => .ok ((address, pk) :: more)

/-- The `profileMap` of `ensureSignaturesValid`: the batch-loaded profiles
keyed by their own `ethAddress` and `tonAddress` fields. -/
def buildProfileMap (ps : List UserProfile) : List (String × UserProfile) :=
  ps.foldl (fun m p =>
    let m1 := match optTruthy p.ethAddress with
      | some e => alset m e p
      | none => m
    match optTruthy p.tonAddress with
    | some t => alset m1 t p
    | none => m1) []

/-- The `if (!pk)` step of the second loop: a falsy public key is fetched
from the `GCPK` row of the profile's alias. -/
def resolveEntryKey (env : AuthEnv) (profile : UserProfile) (pk? : Option String) :
    Except SvcError (UserProfile × String) :=
  match optTruthy pk? with
  | some pk => .ok (profile, pk)
  | none =>
    match PublicKeyService.getPublicKey env profile.alias' with
    | none => .error (.pkMissing profile.alias')
    | some pkObj => .ok (profile, pkObj.publicKey)

/-- The second loop of `ensureSignaturesValid`: resolve each entry's profile
(default-synthesized when permitted and a key is known) and its public
key. -/
def resolveProfilesAndKeys (env : AuthEnv) (allow : Bool) (scheme : SigningScheme)
    (profileMap : List (String × UserProfile)) :
    List (String × Option String) → Except SvcError (List (UserProfile × String))
  | [] => .ok []
  | (address, pk?) :: rest =>
    let profileE : Except SvcError UserProfile :=
      match alget profileMap address with
      | some profile => .ok profile
      | none =>
        if allow then
          match optTruthy pk? with
          | some pk => .ok (PublicKeyService.getDefaultUserProfile env pk scheme)
          | none => .error (.userNotRegistered address)
        else .error (.userNotRegistered address)
    match profileE with
    | .error e => .error e
    | .ok profile =>
      match resolveEntryKey env profile pk? with
      | .error e => .error e
      | .ok pr =>
        match resolveProfilesAndKeys env allow scheme profileMap rest with
        | .error e => .error e
        | .ok more => .ok (pr :: more)

/-- One check of the verification loop of `ensureSignaturesValid`. -/
def verifyOne (env : AuthEnv) (dto : ChainCallDTO) (sig : SignatureDto)
    (user : UserProfile) (pk : String) : Except SvcError Unit :=
  let isValid :=
    if dto.signing = some .TON then env.isValidTon sig.signature dto pk dto.pfx
    else env.isValidEth sig.signature dto pk
  if isValid then .ok () else .error (.pkInvalidSignature user.alias')

def verifyAll (env : AuthEnv) (dto : ChainCallDTO) :
    List (SignatureDto × UserProfile × String) → Except SvcError Unit
  | [] => .ok ()
  | (sig, user, pk) :: rest =>
    match verifyOne env dto sig user pk with
    | .error e => .error e
    | .ok _ => verifyAll env dto rest

/-- The body of `ensureSignaturesValid` for a non-empty signatures list:
resolve the `(address, publicKey?)` pairs (rejecting duplicates), resolve
profiles and keys, verify every signature, and return the users. -/
def ensureCore (env : AuthEnv) (allow : Bool) (dto : ChainCallDTO)
    (sigs : List SignatureDto) : Except SvcError (List UserProfile) :=
  let scheme := dto.signing.getD .ETH
  match resolveAll env dto scheme sigs [] with
  | .error e => .error e
  | .ok pairs =>
    let profMap := buildProfileMap
      (PublicKeyService.getUserProfiles env (pairs.map Prod.fst))
    match resolveProfilesAndKeys env allow scheme profMap pairs with
    | .error e => .error e
    | .ok resolved =>
      match verifyAll env dto (sigs.zip resolved) with
      | .error e => .error e
      | .ok _ => .ok (resolved.map Prod.fst)

/-- `PublicKeyService.ensureSignaturesValid(ctx, dto)`; `allow` is
`ctx.config.allowNonRegisteredUsers`.  An absent or empty signatures list
returns `[]` at once. -/
def PublicKeyService.ensureSignaturesValid (env : AuthEnv) (allow : Bool)
    (dto : ChainCallDTO) : Except SvcError (List UserProfile) :=
  match dto.signatures with
  | none => .ok []
  | some sigs => if sigs.isEmpty then .ok [] else ensureCore env allow dto sigs

/-! ### Inversion and resolution lemmas -/

theorem authenticate_eq_signed {env : AuthEnv} {ctx : AuthCtx} {dto : ChainCallDTO}
    {s : SignatureDto} {ss : List SignatureDto} {m : Nat}
    (hsig : dto.signatures = some (s :: ss)) :
    authenticate env ctx (some dto) m = authenticateSigned env ctx dto s ss m := by
  unfold authenticate
  dsimp only
  rw [hsig]

theorem authenticate_eq_empty {env : AuthEnv} {ctx : AuthCtx} {dto : ChainCallDTO} {m : Nat}
    (hsig : dto.signatures = none ∨ dto.signatures = some []) :
    authenticate env ctx (some dto) m = authenticateEmpty ctx dto m := by
  unfold authenticate
  dsimp only
  rcases hsig with h | h <;> rw [h]

theorem authenticateSigned_ok_inv {env : AuthEnv} {ctx : AuthCtx} {dto : ChainCallDTO}
    {s : SignatureDto} {ss : List SignatureDto} {m : Nat} {r : AuthResult} {ctx' : AuthCtx}
    (h : authenticateSigned env ctx dto s ss m = .ok (r, ctx')) :
    ∃ u us,
      processEntry env ctx.allowNonRegisteredUsers dto (dto.signing.getD .ETH) s = .ok u ∧
      processEntries env ctx.allowNonRegisteredUsers dto (dto.signing.getD .ETH) ss 1 = .ok us ∧
      r = { alias' := u.alias', ethAddress := u.ethAddress, tonAddress := u.tonAddress
            roles := u.roles, users := (u :: us).map copyProfile, minSignatures := m } ∧
      ctx' = { ctx with callingUsersValue := some ((u :: us).map copyProfile) } := by
  unfold authenticateSigned at h
  dsimp only at h
  split at h
  case h_1 => simp at h
  case h_2 u hu =>
    split at h
    case h_1 => simp at h
    case h_2 us hus =>
      simp only [Except.ok.injEq, Prod.mk.injEq] at h
      exact ⟨u, us, hu, hus, h.1.symm, h.2.symm⟩

theorem processEntries_ok_mem {env : AuthEnv} {allow : Bool} {dto : ChainCallDTO}
    {scheme : SigningScheme} :
    ∀ {sigs : List SignatureDto} {i : Nat} {us : List UserProfile},
      processEntries env allow dto scheme sigs i = .ok us →
      ∀ sig ∈ sigs, ∃ u, processEntry env allow dto scheme sig = .ok u := by
  intro sigs
  induction sigs with
  | nil => intro i us _ sig hmem; simp at hmem
  | cons s rest ih =>
    intro i us h sig hmem
    unfold processEntries at h
    split at h
    case h_1 => simp at h
    case h_2 u hu =>
      split at h
      case h_1 => simp at h
      case h_2 more hmore =>
        rcases List.mem_cons.mp hmem with hmem | hmem
        · exact ⟨u, hmem ▸ hu⟩
        · exact ih hmore sig hmem

theorem ensure_eq_core {env : AuthEnv} {allow : Bool} {dto : ChainCallDTO}
    {sigs : List SignatureDto} (hsig : dto.signatures = some sigs) (hne : sigs ≠ []) :
    PublicKeyService.ensureSignaturesValid env allow dto = ensureCore env allow dto sigs := by
  unfold PublicKeyService.ensureSignaturesValid
  rw [hsig]
  have hemp : sigs.isEmpty = false := by
    cases sigs with
    | nil => exact absurd rfl hne
    | cons a l => rfl
  dsimp only
  simp [hemp]

theorem ensureCore_resolve_error {env : AuthEnv} {allow : Bool} {dto : ChainCallDTO}
    {sigs : List SignatureDto} {e : SvcError}
    (h : resolveAll env dto (dto.signing.getD .ETH) sigs [] = .error e) :
    ensureCore env allow dto sigs = .error e := by
  unfold ensureCore
  dsimp only
  rw [h]

theorem ensureCore_ok_resolveAll {env : AuthEnv} {allow : Bool} {dto : ChainCallDTO}
    {sigs : List SignatureDto} {users : List UserProfile}
    (h : ensureCore env allow dto sigs = .ok users) :
    ∃ pairs, resolveAll env dto (dto.signing.getD .ETH) sigs [] = .ok pairs := by
  unfold ensureCore at h
  dsimp only at h
  split at h
  case h_1 => simp at h
  case h_2 pairs hpairs => exact ⟨pairs, hpairs⟩

/-- The address `resolveOne` assigns, when it succeeds. -/
def resolveOneAddr (env : AuthEnv) (dto : ChainCallDTO) (scheme : SigningScheme)
    (sig : SignatureDto) : Option String :=
  match resolveOne env dto scheme sig with
  | .ok p => some p.1
  | .error _ => none

theorem resolveAll_ok_nodup {env : AuthEnv} {dto : ChainCallDTO} {scheme : SigningScheme} :
    ∀ {sigs : List SignatureDto} {seen : List String} {pairs : List (String × Option String)},
      resolveAll env dto scheme sigs seen = .ok pairs →
      (pairs.map Prod.fst).Nodup ∧ ∀ a ∈ pairs.map Prod.fst, a ∉ seen := by
  intro sigs
  induction sigs with
  | nil =>
    intro seen pairs h
    unfold resolveAll at h
    simp only [Except.ok.injEq] at h
    subst h
    simp
  | cons sig rest ih =>
    intro seen pairs h
    unfold resolveAll at h
    split at h
    case h_1 => simp at h
    case h_2 address pk hres =>
      split at h
      case isTrue => simp at h
      case isFalse hmem =>
        split at h
        case h_1 => simp at h
        case h_2 more hmore =>
          simp only [Except.ok.injEq] at h
          subst h
          obtain ⟨hnd, hnin⟩ := ih hmore
          constructor
          · simp only [List.map_cons, List.nodup_cons]
            refine ⟨?_, hnd⟩
            intro hin
            exact hnin address hin (List.mem_cons_self _ _)
          · intro a ha
            simp only [List.map_cons, List.mem_cons] at ha
            rcases ha with ha | ha
            · exact ha ▸ hmem
            · exact fun hs => hnin a ha (List.mem_cons_of_mem _ hs)

theorem resolveAll_duplicate {env : AuthEnv} {dto : ChainCallDTO} {scheme : SigningScheme} :
    ∀ (sigs : List SignatureDto) (seen : List String),
      (sigs.all fun sig => okB (resolveOne env dto scheme sig)) = true →
      (¬ (sigs.filterMap (resolveOneAddr env dto scheme)).Nodup ∨
        ∃ a ∈ sigs.filterMap (resolveOneAddr env dto scheme), a ∈ seen) →
      ∃ a, resolveAll env dto scheme sigs seen = .error (.duplicateSigner a) := by
  intro sigs
  induction sigs with
  | nil =>
    intro seen _ hdis
    rcases hdis with h | ⟨a, ha, _⟩
    · simp at h
    · simp at ha
  | cons sig rest ih =>
    intro seen hall hdis
    rw [List.all_cons, Bool.and_eq_true] at hall
    obtain ⟨hok, hrest⟩ := hall
    cases hres : resolveOne env dto scheme sig with
    | error e => rw [hres] at hok; simp [okB] at hok
    | ok p =>
      obtain ⟨a, pk⟩ := p
      have hfm : (sig :: rest).filterMap (resolveOneAddr env dto scheme) =
          a :: rest.filterMap (resolveOneAddr env dto scheme) := by
        simp [List.filterMap_cons, resolveOneAddr, hres]
      rw [hfm] at hdis
      by_cases hmem : a ∈ seen
      · exact ⟨a, by unfold resolveAll; rw [hres]; simp [hmem]⟩
      · have hdis' : ¬ (rest.filterMap (resolveOneAddr env dto scheme)).Nodup ∨
            ∃ b ∈ rest.filterMap (resolveOneAddr env dto scheme), b ∈ a :: seen := by
          rcases hdis with hnd | ⟨b, hb, hbs⟩
          · by_cases hin : a ∈ rest.filterMap (resolveOneAddr env dto scheme)
            · exact Or.inr ⟨a, hin, List.mem_cons_self _ _⟩
            · refine Or.inl ?_
              intro hndrest
              exact hnd (List.nodup_cons.mpr ⟨hin, hndrest⟩)
          · rcases List.mem_cons.mp hb with hb' | hb'
            · exact absurd (hb' ▸ hbs) hmem
            · exact Or.inr ⟨b, hb', List.mem_cons_of_mem _ hbs⟩
        obtain ⟨c, hc⟩ := ih (a :: seen) hrest hdis'
        exact ⟨c, by unfold resolveAll; rw [hres]; simp [hmem, hc]⟩

/-! ### Concrete environments for witnesses and counterexamples -/

/-- A minimal crypto/store environment: nothing is recoverable, every
verification succeeds, hex normalization is the identity and the ETH
address of key `k` is `addr-k`. -/
def simpleEnv : AuthEnv where
  recoverPublicKey := fun _ _ _ => none
  getNonCompactHexPublicKey := fun k => k
  getEthAddress := fun k => "addr-" ++ k
  getCompactBase64PublicKey := fun k => k
  getTonAddress := fun k => "ton-" ++ k
  isValidEth := fun _ _ _ => true
  isValidTon := fun _ _ _ _ => true
  profileState := []
  adminProfile := fun _ => none
  publicKeyState := []
  adminPublicKey := fun _ => none

def ctx0 : AuthCtx := {}

/-- The registered profile of the signer whose key is `PK`. -/
def profDup : UserProfile :=
  { alias' := "client|dup", ethAddress := some "addr-PK", roles := ["EVALUATE"] }

/-- An environment where every signature recovers to the key `PK`, whose
address `addr-PK` carries the registered profile `profDup`. -/
def envDup : AuthEnv :=
  { simpleEnv with
    recoverPublicKey := fun _ _ _ => some "PK"
    profileState := [("addr-PK", profDup)] }

/-- An envelope with two bare signature entries — the same signer signing
twice (both recover to `PK`). -/
def dtoDup : ChainCallDTO :=
  { signatures := some [{ signature := "s1" }, { signature := "s2" }] }

/-- An envelope with two entries declaring the same `signerAddress`. -/
def dtoDupAddr : ChainCallDTO :=
  { signatures := some [{ signature := "s1", signerAddress := some "a1" },
                        { signature := "s2", signerAddress := some "a1" }] }

/-- A registered profile at address `a1`. -/
def prof1 : UserProfile :=
  { alias' := "client|u1", ethAddress := some "a1", roles := ["EVALUATE"] }

/-- Store with `prof1` registered and its `GCPK` row present. -/
def env1 : AuthEnv :=
  { simpleEnv with
    profileState := [("a1", prof1)]
    publicKeyState := [("client|u1", { publicKey := "pk1", signing := .ETH })] }

/-- A single-entry envelope naming `signerAddress = a1`. -/
def dto1 : ChainCallDTO :=
  { signatures := some [{ signature := "s1", signerAddress := some "a1" }] }

/-- A single recoverable entry that also carries the (matching) public-key
hint `PK`. -/
def dtoHint : ChainCallDTO :=
  { signatures := some [{ signature := "s1", signerPublicKey := some "PK" }] }

/-! ### Claim C1 -/

/-- C1 (amended): the duplicate-signer check lives in
`PublicKeyService.ensureSignaturesValid`: whenever it returns a user list,
the resolved signer addresses of the envelope are pairwise distinct, and
whenever every entry resolves but two entries resolve to the same address,
it fails with a `DuplicateSigner` error.  The `authenticate` function
itself performs no such check (see the counterexample). -/
theorem duplicate_signer_amended :
    (∀ (env : AuthEnv) (allow : Bool) (dto : ChainCallDTO) (sigs : List SignatureDto)
        (users : List UserProfile),
        dto.signatures = some sigs →
        PublicKeyService.ensureSignaturesValid env allow dto = .ok users →
        ∃ pairs, resolveAll env dto (dto.signing.getD .ETH) sigs [] = .ok pairs ∧
          (pairs.map Prod.fst).Nodup) ∧
    (∀ (env : AuthEnv) (allow : Bool) (dto : ChainCallDTO) (sigs : List SignatureDto),
        dto.signatures = some sigs →
        (sigs.all fun sig => okB (resolveOne env dto (dto.signing.getD .ETH) sig)) = true →
        ¬ (sigs.filterMap (resolveOneAddr env dto (dto.signing.getD .ETH))).Nodup →
        ∃ a, PublicKeyService.ensureSignaturesValid env allow dto =
          .error (.duplicateSigner a)) := by
  constructor
  · intro env allow dto sigs users hsig hok
    cases sigs with
    | nil => exact ⟨[], rfl, List.nodup_nil⟩
    | cons s ss =>
      rw [ensure_eq_core hsig (by simp)] at hok
      obtain ⟨pairs, hpairs⟩ := ensureCore_ok_resolveAll hok
      exact ⟨pairs, hpairs, (resolveAll_ok_nodup hpairs).1⟩
  · intro env allow dto sigs hsig hall hdup
    have hne : sigs ≠ [] := by
      intro hnil
      subst hnil
      simp at hdup
    obtain ⟨a, ha⟩ := resolveAll_duplicate sigs [] hall (Or.inl hdup)
    refine ⟨a, ?_⟩
    rw [ensure_eq_core hsig hne]
    exact ensureCore_resolve_error ha

/-- Witness for C1: a registered single-signer envelope resolves to a
duplicate-free address list, and the two-entry envelope naming the same
`signerAddress` twice is rejected with `DuplicateSigner`. -/
theorem duplicate_signer_amended_witness :
    (∃ pairs, resolveAll env1 dto1 (dto1.signing.getD .ETH)
        [{ signature := "s1", signerAddress := some "a1" }] [] = .ok pairs ∧
      (pairs.map Prod.fst).Nodup) ∧
    (∃ a, PublicKeyService.ensureSignaturesValid simpleEnv false dtoDupAddr =
      .error (.duplicateSigner a)) :=
  ⟨duplicate_signer_amended.1 env1 false dto1
      [{ signature := "s1", signerAddress := some "a1" }] [prof1] rfl (by rfl),
   duplicate_signer_amended.2 simpleEnv false dtoDupAddr
      [{ signature := "s1", signerAddress := some "a1" },
       { signature := "s2", signerAddress := some "a1" }] rfl (by rfl) (by decide)⟩

/-- C1 counterexample: `authenticate` on an envelope whose two entries
recover to the same signer succeeds and returns the same resolved address
(`addr-PK`) twice — no `DuplicateSigner` error is raised. -/
theorem authenticate_duplicate_accepted_cex :
    authenticate envDup ctx0 (some dtoDup) 1 =
      .ok ({ alias' := "client|dup", ethAddress := some "addr-PK", tonAddress := none
             roles := ["EVALUATE"], users := [profDup, profDup], minSignatures := 1 },
           { allowNonRegisteredUsers := false, signedProposal := none
             callingUsersValue := some [profDup, profDup] }) ∧
    ¬ ([profDup, profDup].map UserProfile.ethAddress).Nodup := by
  exact ⟨rfl, by decide⟩

/-! ### Claim C6 -/

/-- Per-entry behavior of `authenticate` on a recoverable signature with a
hint: the four mismatch/redundancy errors of lines 127–143 of
`authenticate.ts`. -/
theorem hint_rejection_aux (env : AuthEnv) (allow : Bool) (dto : ChainCallDTO)
    (scheme : SigningScheme) (sig : SignatureDto) (pk : String)
    (hrec : recoverPublicKey env sig.signature dto (dto.pfx.getD "") = some pk) :
    (∀ spk, sig.signerPublicKey = some spk →
      processEntry env allow dto scheme sig =
        .error (if pk ≠ env.getNonCompactHexPublicKey spk
                then .publicKeyMismatch pk (env.getNonCompactHexPublicKey spk)
                else .redundantSignerPublicKey pk spk)) ∧
    (∀ sa, sig.signerPublicKey = none → sig.signerAddress = some sa →
      processEntry env allow dto scheme sig =
        .error (if sa ≠ env.getEthAddress pk
                then .addressMismatch (env.getEthAddress pk) sa
                else .redundantSignerAddress (env.getEthAddress pk) sa)) := by
  constructor
  · intro spk hspk
    unfold processEntry
    rw [hrec, hspk]
    by_cases hne : pk ≠ env.getNonCompactHexPublicKey spk
    · simp [hne]
    · simp [hne]
  · intro sa hspk hsa
    unfold processEntry
    rw [hrec, hspk, hsa]
    by_cases hne : sa ≠ env.getEthAddress pk
    · simp [hne]
    · simp [hne]

/-- C6 (amended): inside `authenticate`'s per-entry processing, a
recoverable signature never accepts a hint silently: with `signerPublicKey`
present the entry fails with `PublicKeyMismatch` (keys differ after
normalization) or `RedundantSignerPublicKey` (keys agree); with only
`signerAddress` present it fails with `AddressMismatch` or
`RedundantSignerAddress`; consequently `authenticate` succeeds only if
every recoverable entry carries neither hint.
(`PublicKeyService.ensureSignaturesValid`, by contrast, accepts such hints
silently — see the counterexample.) -/
theorem hint_rejection_in_authenticate_amended :
    (∀ (env : AuthEnv) (allow : Bool) (dto : ChainCallDTO) (scheme : SigningScheme)
        (sig : SignatureDto) (pk : String),
        recoverPublicKey env sig.signature dto (dto.pfx.getD "") = some pk →
        (∀ spk, sig.signerPublicKey = some spk →
          processEntry env allow dto scheme sig =
            .error (if pk ≠ env.getNonCompactHexPublicKey spk
                    then .publicKeyMismatch pk (env.getNonCompactHexPublicKey spk)
                    else .redundantSignerPublicKey pk spk)) ∧
        (∀ sa, sig.signerPublicKey = none → sig.signerAddress = some sa →
          processEntry env allow dto scheme sig =
            .error (if sa ≠ env.getEthAddress pk
                    then .addressMismatch (env.getEthAddress pk) sa
                    else .redundantSignerAddress (env.getEthAddress pk) sa))) ∧
    (∀ (env : AuthEnv) (ctx : AuthCtx) (dto : ChainCallDTO) (m : Nat) (r : AuthResult)
        (ctx' : AuthCtx) (sigs : List SignatureDto),
        dto.signatures = some sigs →
        authenticate env ctx (some dto) m = .ok (r, ctx') →
        ∀ sig ∈ sigs,
          (∃ pk, recoverPublicKey env sig.signature dto (dto.pfx.getD "") = some pk) →
          sig.signerPublicKey = none ∧ sig.signerAddress = none) := by
  constructor
  · exact hint_rejection_aux
  · intro env ctx dto m r ctx' sigs hsig hauth sig hmem ⟨pk, hrec⟩
    cases sigs with
    | nil => simp at hmem
    | cons s ss =>
      rw [authenticate_eq_signed hsig] at hauth
      obtain ⟨u, us, hu, hus, -, -⟩ := authenticateSigned_ok_inv hauth
      have hentry : ∃ v, processEntry env ctx.allowNonRegisteredUsers dto
          (dto.signing.getD .ETH) sig = .ok v := by
        rcases List.mem_cons.mp hmem with h | h
        · exact ⟨u, h ▸ hu⟩
        · exact processEntries_ok_mem hus sig h
      obtain ⟨v, hv⟩ := hentry
      constructor
      · cases hspk : sig.signerPublicKey with
        | none => rfl
        | some spk =>
          have := (hint_rejection_aux env ctx.allowNonRegisteredUsers dto
            (dto.signing.getD .ETH) sig pk hrec).1 spk hspk
          rw [this] at hv
          cases hv
      · cases hspk : sig.signerPublicKey with
        | some spk =>
          have := (hint_rejection_aux env ctx.allowNonRegisteredUsers dto
            (dto.signing.getD .ETH) sig pk hrec).1 spk hspk
          rw [this] at hv
          cases hv
        | none =>
          cases hsa : sig.signerAddress with
          | none => rfl
          | some sa =>
            have := (hint_rejection_aux env ctx.allowNonRegisteredUsers dto
              (dto.signing.getD .ETH) sig pk hrec).2 sa hspk hsa
            rw [this] at hv
            cases hv

/-- The result `authenticate` produces on the double-signed envelope
`dtoDup` in environment `envDup`. -/
def rDup : AuthResult :=
  { alias' := "client|dup", ethAddress := some "addr-PK", tonAddress := none
    roles := ["EVALUATE"], users := [profDup, profDup], minSignatures := 1 }

/-- The context after that call: `callingUsers` set to the two (equal)
profiles. -/
def ctxDup : AuthCtx :=
  { allowNonRegisteredUsers := false, signedProposal := none
    callingUsersValue := some [profDup, profDup] }

/-- Witness for C6: the matching public-key hint on a recoverable entry is
rejected with `RedundantSignerPublicKey` by `authenticate`'s entry
processing, and on the accepted hint-free envelope `dtoDup` every entry
indeed carries no hint. -/
theorem hint_rejection_in_authenticate_amended_witness :
    processEntry envDup false dtoHint (dtoHint.signing.getD .ETH)
        { signature := "s1", signerPublicKey := some "PK" } =
      .error (.redundantSignerPublicKey "PK" "PK") ∧
    (({ signature := "s1" } : SignatureDto).signerPublicKey = none ∧
     ({ signature := "s1" } : SignatureDto).signerAddress = none) :=
  ⟨(hint_rejection_in_authenticate_amended.1 envDup false dtoHint
      (dtoHint.signing.getD .ETH) { signature := "s1", signerPublicKey := some "PK" } "PK"
      (by rfl)).1 "PK" rfl,
   hint_rejection_in_authenticate_amended.2 envDup ctx0 dtoDup 1 rDup ctxDup
     [{ signature := "s1" }, { signature := "s2" }] rfl (by rfl)
     { signature := "s1" } (by simp) ⟨"PK", rfl⟩⟩

/-- C6 counterexample: `PublicKeyService.ensureSignaturesValid` silently
accepts a `signerPublicKey` hint on a recoverable entry — the signature
recovers to `PK`, the provided hint equals `PK` after normalization, and
the call succeeds instead of failing with `RedundantSignerPublicKey`. -/
theorem ensure_hint_silently_accepted_cex :
    PublicKeyService.ensureSignaturesValid envDup false dtoHint = .ok [profDup] ∧
    envDup.recoverPublicKey "s1" dtoHint "" = some "PK" ∧
    envDup.getNonCompactHexPublicKey "PK" = "PK" := by
  exact ⟨rfl, rfl, rfl⟩

/-! ### Claim C8 -/

theorem processEntries_ok_length {env : AuthEnv} {allow : Bool} {dto : ChainCallDTO}
    {scheme : SigningScheme} :
    ∀ {sigs : List SignatureDto} {i : Nat} {us : List UserProfile},
      processEntries env allow dto scheme sigs i = .ok us → us.length = sigs.length := by
  intro sigs
  induction sigs with
  | nil =>
    intro i us h
    unfold processEntries at h
    simp only [Except.ok.injEq] at h
    subst h
    rfl
  | cons s rest ih =>
    intro i us h
    unfold processEntries at h
    split at h
    case h_1 => simp at h
    case h_2 u hu =>
      split at h
      case h_1 => simp at h
      case h_2 more hmore =>
        simp only [Except.ok.injEq] at h
        subst h
        simp [ih hmore]

/-- C8 (amended): on every accepted signed envelope, `authenticate` returns
one user per signature entry, in entry order (the profile resolved for
entry `i` at position `i`), with no deduplication: the list's length equals
the number of signature entries (not the number of unique signer
addresses), `ctx.callingUsers` is set to exactly that list, the result
spreads the first user's fields, and `minSignatures` is passed through. -/
theorem authenticate_output_amended :
    ∀ (env : AuthEnv) (ctx : AuthCtx) (dto : ChainCallDTO) (s : SignatureDto)
      (ss : List SignatureDto) (m : Nat) (r : AuthResult) (ctx' : AuthCtx),
      dto.signatures = some (s :: ss) →
      authenticate env ctx (some dto) m = .ok (r, ctx') →
      ∃ u us,
        processEntry env ctx.allowNonRegisteredUsers dto (dto.signing.getD .ETH) s = .ok u ∧
        processEntries env ctx.allowNonRegisteredUsers dto (dto.signing.getD .ETH) ss 1 =
          .ok us ∧
        r.users = (u :: us).map copyProfile ∧
        ctx'.callingUsersValue = some r.users ∧
        r.users.length = (s :: ss).length ∧
        r.minSignatures = m ∧
        r.alias' = u.alias' ∧ r.ethAddress = u.ethAddress ∧
        r.tonAddress = u.tonAddress ∧ r.roles = u.roles := by
  intro env ctx dto s ss m r ctx' hsig hauth
  rw [authenticate_eq_signed hsig] at hauth
  obtain ⟨u, us, hu, hus, hr, hctx⟩ := authenticateSigned_ok_inv hauth
  subst hr
  subst hctx
  refine ⟨u, us, hu, hus, rfl, rfl, ?_, rfl, rfl, rfl, rfl, rfl⟩
  simp [processEntries_ok_length hus]

/-- Witness for C8: the double-signed envelope `dtoDup` — two entries, two
(equal) users, in order, `callingUsers` set to the same list. -/
theorem authenticate_output_amended_witness :
    ∃ u us,
      processEntry envDup ctx0.allowNonRegisteredUsers dtoDup (dtoDup.signing.getD .ETH)
        { signature := "s1" } = .ok u ∧
      processEntries envDup ctx0.allowNonRegisteredUsers dtoDup (dtoDup.signing.getD .ETH)
        [{ signature := "s2" }] 1 = .ok us ∧
      rDup.users = (u :: us).map copyProfile ∧
      ctxDup.callingUsersValue = some rDup.users ∧
      rDup.users.length =
        ([{ signature := "s1" }, { signature := "s2" }] : List SignatureDto).length ∧
      rDup.minSignatures = 1 ∧
      rDup.alias' = u.alias' ∧ rDup.ethAddress = u.ethAddress ∧
      rDup.tonAddress = u.tonAddress ∧ rDup.roles = u.roles :=
  authenticate_output_amended envDup ctx0 dtoDup { signature := "s1" }
    [{ signature := "s2" }] 1 rDup ctxDup rfl (by rfl)

/-- C8 counterexample: the accepted envelope `dtoDup` has two signature
entries resolving to one unique signer address, yet `authenticate` returns
a two-element users list (the same alias and address twice) — no
deduplication by alias happens and the length is the entry count, not the
unique-address count. -/
theorem authenticate_no_alias_dedup_cex :
    authenticate envDup ctx0 (some dtoDup) 1 = .ok (rDup, ctxDup) ∧
    rDup.users.length = 2 ∧
    (rDup.users.map UserProfile.alias').dedup.length = 1 ∧
    (rDup.users.map UserProfile.ethAddress).dedup.length = 1 := by
  refine ⟨rfl, rfl, by decide, by decide⟩

/-! ### Claim C9 -/

/-- The chaincode name the origin-chaincode branch extracts from the peer's
signed proposal: `none` when the proposal, its payload, or the decoded
`chaincode_spec`/`chaincode_id` is absent. -/
def extractChaincodeId (ctx : AuthCtx) : Option String :=
  match ctx.signedProposal with
  | none => none
  | some signedProposal =>
    match signedProposal.proposalPayload with
    | none => none
    | some proposalPayload => proposalPayload.chaincodeId

theorem origin_extract_none {ctx : AuthCtx} {dto : ChainCallDTO} {chaincode : String}
    (hext : extractChaincodeId ctx = none) :
    ∃ msg, authenticateAsOriginChaincode ctx dto chaincode =
      .error (.chaincodeAuthorization msg) := by
  unfold extractChaincodeId at hext
  unfold authenticateAsOriginChaincode
  revert hext
  cases ctx.signedProposal with
  | none => intro _; exact ⟨_, rfl⟩
  | some sp =>
    dsimp only
    cases sp.proposalPayload with
    | none => intro _; exact ⟨_, rfl⟩
    | some pp =>
      dsimp only
      intro hext
      rw [hext]
      exact ⟨_, rfl⟩

theorem origin_extract_some {ctx : AuthCtx} {dto : ChainCallDTO} {chaincode : String}
    {cid : String} (hext : extractChaincodeId ctx = some cid) :
    authenticateAsOriginChaincode ctx dto chaincode =
      if cid ≠ chaincode then
        .error (.chaincodeAuthorization
          ("Chaincode authorization failed. Got DTO with signerAddress: " ++
            (dto.signerAddress.getD "undefined") ++
            ", but signed proposal has chaincodeId: " ++ cid ++ "."))
      else .ok ("service|" ++ chaincode, none, []) := by
  unfold extractChaincodeId at hext
  unfold authenticateAsOriginChaincode
  revert hext
  cases ctx.signedProposal with
  | none => intro hext; simp at hext
  | some sp =>
    dsimp only
    cases sp.proposalPayload with
    | none => intro hext; simp at hext
    | some pp =>
      dsimp only
      intro hext
      rw [hext]

theorem authenticateEmpty_service {ctx : AuthCtx} {dto : ChainCallDTO} {sa : String} {m : Nat}
    (hsa : dto.signerAddress = some sa) (hstarts : strStartsWith sa "service|" = true) :
    authenticateEmpty ctx dto m =
      match authenticateAsOriginChaincode ctx dto (sa.drop 8) with
      | .error e => .error e
      | .ok (a, eth, roles) =>
        .ok ({ alias' := a, ethAddress := eth, tonAddress := none, roles := roles
               users := [], minSignatures := m }, ctx) := by
  unfold authenticateEmpty
  rw [hsa]
  dsimp only
  rw [hstarts]
  rfl

/-- C9 (amended): with no signatures and `signerAddress = "service|" ++
name`, `authenticate` takes the origin-chaincode branch and fails with
`ChaincodeAuthorization` exactly when the chaincode id extracted from the
peer's signed proposal is missing (no proposal, no payload, or no
`chaincode_spec`/`chaincode_id`) or unequal to `name`; an extracted id
equal to `name` — including the empty id when `signerAddress` is the bare
`"service|"` — is accepted, returning alias `"service|" ++ name` (the
original `signerAddress`), no addresses, empty roles and an empty users
list, leaving `ctx.callingUsers` unset. -/
theorem origin_chaincode_amended :
    ∀ (env : AuthEnv) (ctx : AuthCtx) (dto : ChainCallDTO) (sa : String) (m : Nat),
      (dto.signatures = none ∨ dto.signatures = some []) →
      dto.signerAddress = some sa →
      strStartsWith sa "service|" = true →
      ((extractChaincodeId ctx = none →
          ∃ msg, authenticate env ctx (some dto) m =
            .error (.chaincodeAuthorization msg)) ∧
       (∀ cid, extractChaincodeId ctx = some cid → cid ≠ sa.drop 8 →
          ∃ msg, authenticate env ctx (some dto) m =
            .error (.chaincodeAuthorization msg)) ∧
       (∀ cid, extractChaincodeId ctx = some cid → cid = sa.drop 8 →
          authenticate env ctx (some dto) m =
            .ok ({ alias' := "service|" ++ sa.drop 8, ethAddress := none, tonAddress := none
                   roles := [], users := [], minSignatures := m }, ctx))) := by
  intro env ctx dto sa m hsig hsa hstarts
  have hemp : authenticate env ctx (some dto) m =
      match authenticateAsOriginChaincode ctx dto (sa.drop 8) with
      | .error e => .error e
      | .ok (a, eth, roles) =>
        .ok ({ alias' := a, ethAddress := eth, tonAddress := none, roles := roles
               users := [], minSignatures := m }, ctx) := by
    rw [authenticate_eq_empty hsig]
    exact authenticateEmpty_service hsa hstarts
  refine ⟨?_, ?_, ?_⟩
  · intro hext
    obtain ⟨msg, hmsg⟩ := @origin_extract_none ctx dto (sa.drop 8) hext
    exact ⟨msg, by rw [hemp, hmsg]⟩
  · intro cid hext hne
    have h := @origin_extract_some ctx dto (sa.drop 8) _ hext
    rw [if_pos hne] at h
    exact ⟨_, by rw [hemp, h]⟩
  · intro cid hext heq
    have h := @origin_extract_some ctx dto (sa.drop 8) _ hext
    rw [if_neg (by simpa using heq)] at h
    rw [hemp, h]

/-- Witness for C9: a `service|svc` envelope against a missing proposal,
a proposal naming `other`, and a proposal naming `svc`. -/
theorem origin_chaincode_amended_witness :
    (∃ msg, authenticate simpleEnv ctx0
        (some { signerAddress := some "service|svc" }) 1 =
      .error (.chaincodeAuthorization msg)) ∧
    (∃ msg, authenticate simpleEnv
        { signedProposal := some { proposalPayload := some { chaincodeId := some "other" } } }
        (some { signerAddress := some "service|svc" }) 1 =
      .error (.chaincodeAuthorization msg)) ∧
    authenticate simpleEnv
        { signedProposal := some { proposalPayload := some { chaincodeId := some "svc" } } }
        (some { signerAddress := some "service|svc" }) 1 =
      .ok ({ alias' := "service|svc", ethAddress := none, tonAddress := none
             roles := [], users := [], minSignatures := 1 },
           { signedProposal := some { proposalPayload := some { chaincodeId := some "svc" } } }) :=
  ⟨(origin_chaincode_amended simpleEnv ctx0
      { signerAddress := some "service|svc" } "service|svc" 1
      (Or.inl rfl) rfl (by decide)).1 rfl,
   (origin_chaincode_amended simpleEnv
      { signedProposal := some { proposalPayload := some { chaincodeId := some "other" } } }
      { signerAddress := some "service|svc" } "service|svc" 1
      (Or.inl rfl) rfl (by decide)).2.1 "other" rfl (by decide),
   (origin_chaincode_amended simpleEnv
      { signedProposal := some { proposalPayload := some { chaincodeId := some "svc" } } }
      { signerAddress := some "service|svc" } "service|svc" 1
      (Or.inl rfl) rfl (by decide)).2.2 "svc" rfl (by decide)⟩

/-- C9 counterexample: with `signerAddress = "service|"` (empty name) and a
proposal whose decoded chaincode name is the empty string, the claim
demands a `ChaincodeAuthorization` failure (the extracted name is empty),
but authentication succeeds. -/
theorem origin_empty_name_accepted_cex :
    authenticate simpleEnv
        { signedProposal := some { proposalPayload := some { chaincodeId := some "" } } }
        (some { signerAddress := some "service|" }) 1 =
      .ok ({ alias' := "service|", ethAddress := none, tonAddress := none
             roles := [], users := [], minSignatures := 1 },
           { signedProposal := some { proposalPayload := some { chaincodeId := some "" } } }) ∧
    strStartsWith "service|" "service|" = true ∧
    extractChaincodeId
        { signedProposal := some { proposalPayload := some { chaincodeId := some "" } } } =
      some "" := by
  refine ⟨rfl, by decide, rfl⟩

end Auth

/-! ## Authorization gate (claim C7)

Modelled from the spec: the per-operation authorization gate
(`GalaTransaction` / `authorize`, §4.5 of the spec) is not under `src/`;
only its test (`GalaTransaction.multisig.spec.ts`) is.  The gate rejects
with a Forbidden error carrying payload `{required, received}` when
`ctx.callingUsers.length < requiredSignatures`.  The message format is
pinned by the test, which asserts the exact string
`"Requires at least 2 signatures but got 1."` — with a trailing period. -/

namespace Gate

/-- Modelled from the spec: the Forbidden message of the required-signature
check, in the exact format the repository's test asserts (trailing period
included). -/
def requiredSignaturesMessage (required received : Nat) : String :=
  "Requires at least " ++ toString required ++ " signatures but got " ++
    toString received ++ "."

inductive GateError where
  | forbidden (message : String) (required received : Nat)
deriving Repr, DecidableEq

/-- Modelled from the spec: reject when the number of authenticated calling
users is below the operation's `requiredSignatures`. -/
def checkRequiredSignatures (callingUsers : List Auth.UserProfile)
    (requiredSignatures : Nat) : Except GateError Unit :=
  if callingUsers.length < requiredSignatures then
    .error (.forbidden (requiredSignaturesMessage requiredSignatures callingUsers.length)
      requiredSignatures callingUsers.length)
  else .ok ()

/-- C7 (amended): an operation declaring `requiredSignatures = N` rejects
`K < N` authenticated calling users with a Forbidden error whose payload is
`{required: N, received: K}` and whose message is
`"Requires at least N signatures but got K."` — with a trailing period,
unlike the claim's quoted message — and passes whenever `K ≥ N`. -/
theorem required_signatures_gate_amended :
    (∀ (users : List Auth.UserProfile) (n : Nat), users.length < n →
        checkRequiredSignatures users n =
          .error (.forbidden (requiredSignaturesMessage n users.length) n users.length)) ∧
    (∀ (users : List Auth.UserProfile) (n : Nat), n ≤ users.length →
        checkRequiredSignatures users n = .ok ()) ∧
    (∀ n k : Nat, requiredSignaturesMessage n k =
        "Requires at least " ++ toString n ++ " signatures but got " ++ toString k ++ ".") := by
  refine ⟨?_, ?_, fun n k => rfl⟩
  · intro users n h
    simp [checkRequiredSignatures, h]
  · intro users n h
    simp [checkRequiredSignatures, Nat.not_lt.mpr h]

/-- Witness for C7: one calling user against `requiredSignatures = 2`
(rejected with the test's exact message and payload) and against
`requiredSignatures = 1` (accepted). -/
theorem required_signatures_gate_amended_witness :
    checkRequiredSignatures [{ alias' := "client|u1", roles := ["EVALUATE"] }] 2 =
      .error (.forbidden "Requires at least 2 signatures but got 1." 2 1) ∧
    checkRequiredSignatures [{ alias' := "client|u1", roles := ["EVALUATE"] }] 1 = .ok () :=
  ⟨required_signatures_gate_amended.1 [{ alias' := "client|u1", roles := ["EVALUATE"] }] 2
      (by decide),
   required_signatures_gate_amended.2.1 [{ alias' := "client|u1", roles := ["EVALUATE"] }] 1
      (by decide)⟩

/-- C7 counterexample: at `N = 2, K = 1` the actual message (pinned by the
repository's test) carries a trailing period, so it is not the string
`"Requires at least 2 signatures but got 1"` the claim quotes. -/
theorem forbidden_message_period_cex :
    requiredSignaturesMessage 2 1 = "Requires at least 2 signatures but got 1." ∧
    requiredSignaturesMessage 2 1 ≠ "Requires at least 2 signatures but got 1" ∧
    checkRequiredSignatures [{ alias' := "client|u1", roles := ["EVALUATE"] }] 2 =
      .error (.forbidden "Requires at least 2 signatures but got 1." 2 1) := by
  refine ⟨rfl, by decide, rfl⟩

end Gate

/-! ## `GalaChainContext` calling-user state (claim C10)

Shallow embedding of the `callingUsersValue` fragment of
`GalaChainContext`: the `callingUsers` setter and the `callingUserData`
setter (which refuses to override existing users). -/

namespace Ctx

/-- `UserRole.EVALUATE`, the default role of an unsigned call. -/
def EVALUATE_ROLE : String := "EVALUATE"

/-- A stored calling-user profile; `alias` may be undefined for unsigned
calls (the `@ts-ignore` assignment in `callingUserData`). -/
structure CtxUserProfile where
  alias' : Option String := none
  ethAddress : Option String := none
  tonAddress : Option String := none
  roles : List String := []
deriving Repr, DecidableEq

/-- The `callingUsersValue` private field of `GalaChainContext`. -/
structure GalaChainContextUsers where
  callingUsersValue : Option (List CtxUserProfile) := none
deriving Repr, DecidableEq

/-- The argument of the `callingUserData` setter. -/
structure CallingUserData where
  alias' : Option String := none
  ethAddress : Option String := none
  tonAddress : Option String := none
  roles : Option (List String) := none
deriving Repr, DecidableEq

/-- `set callingUsers(users)`. -/
def setCallingUsers (c : GalaChainContextUsers) (users : List CtxUserProfile) :
    GalaChainContextUsers :=
  { c with callingUsersValue := some users }

/-- `set callingUserData(d)`: returns without any change when
`callingUsersValue` is already set ("do not override existing users");
otherwise stores a single profile built from `d`, with roles defaulting to
`[UserRole.EVALUATE]`. -/
def setCallingUserData (c : GalaChainContextUsers) (d : CallingUserData) :
    GalaChainContextUsers :=
  match c.callingUsersValue with
  | some _ => c
  | none =>
    { c with
      callingUsersValue := some [{ alias' := d.alias', ethAddress := d.ethAddress
                                   tonAddress := d.tonAddress
                                   roles := d.roles.getD [EVALUATE_ROLE] }] }

/-- C10: once `ctx.callingUsers` has been set (it is then `some` list,
never unset by the setter), a later assignment to `ctx.callingUserData`
leaves the context — in particular `callingUsers` — completely unchanged:
the unsigned-call identity path can never replace an established
authenticated user list. -/
theorem callingUserData_never_overrides :
    (∀ (c : GalaChainContextUsers) (users : List CtxUserProfile) (d : CallingUserData),
        setCallingUserData (setCallingUsers c users) d = setCallingUsers c users ∧
        (setCallingUsers c users).callingUsersValue = some users) ∧
    (∀ (c : GalaChainContextUsers) (d : CallingUserData),
        c.callingUsersValue.isSome = true → setCallingUserData c d = c) := by
  constructor
  · intro c users d
    exact ⟨rfl, rfl⟩
  · intro c d h
    cases hc : c.callingUsersValue with
    | none => rw [hc] at h; simp at h
    | some us =>
      unfold setCallingUserData
      rw [hc]

/-- Witness for C10: a context whose calling users were set to one profile
is untouched by a subsequent `callingUserData` assignment. -/
theorem callingUserData_never_overrides_witness :
    (setCallingUserData
        (setCallingUsers {} [{ alias' := some "client|u1", roles := ["EVALUATE"] }])
        { alias' := some "eth|attacker", roles := some ["CURATOR"] } =
      setCallingUsers {} [{ alias' := some "client|u1", roles := ["EVALUATE"] }] ∧
     (setCallingUsers {} [{ alias' := some "client|u1", roles := ["EVALUATE"] }]).callingUsersValue =
      some [{ alias' := some "client|u1", roles := ["EVALUATE"] }]) ∧
    setCallingUserData { callingUsersValue := some [] } { alias' := some "eth|attacker" } =
      { callingUsersValue := some [] } :=
  ⟨callingUserData_never_overrides.1 {}
      [{ alias' := some "client|u1", roles := ["EVALUATE"] }]
      { alias' := some "eth|attacker", roles := some ["CURATOR"] },
   callingUserData_never_overrides.2 { callingUsersValue := some [] }
      { alias' := some "eth|attacker" } rfl⟩

end Ctx

end GalaSdk
